import Mathlib

/-!
Verification of the fuzzy address-matching and ranking core of the repository
(best_hack25): a shallow embedding, in Lean, of

* `src/address-corrector/fast_corrector.py` (the FTS5-dictionary corrector with
  its Levenshtein fallback, early exit, and blended ranking),
* `src/address-corrector/grpc_server.py` (the correction orchestrator
  `correct_address`),
* `src/geocode-service/advanced_search.py` (address normalization for
  comparison and the multi-signal ranking engine `AdvancedSearchEngine.search`),

together with theorems settling the testable properties stated in the spec.
Python floats are modelled by rationals, Python strings by Lean strings
(lists of unicode characters), and the external SQLite store by explicit
function and list parameters.
-/

namespace BestHack

/-! ### Basic character and string helpers (Python string primitives) -/

/-- Whitespace, in the sense of Python's `str.split`, `str.strip` and the
regex class backslash-s, restricted to the ASCII whitespace characters. -/
def isPySpace (c : Char) : Bool :=
  c = ' ' || c = '\t' || c = '\n' || c = '\x0b' || c = '\x0c' || c = '\r'

/-- Python's `str.lower`, character by character, for the alphabets this
repository actually processes: ASCII `A`-`Z` and the Cyrillic letters
`А`-`Я` (`0x410`-`0x42f`, lowered by adding `0x20`) plus `Ё` (`0x401`,
lowered to `0x451`). Any other character is unchanged. -/
def pyLower (c : Char) : Char :=
  if 0x41 ≤ c.toNat ∧ c.toNat ≤ 0x5a then Char.ofNat (c.toNat + 0x20)
  else if 0x410 ≤ c.toNat ∧ c.toNat ≤ 0x42f then Char.ofNat (c.toNat + 0x20)
  else if c.toNat = 0x401 then Char.ofNat 0x451
  else c

/-- Python's `str.strip` on a character list: drop whitespace from both ends. -/
def stripChars (cs : List Char) : List Char :=
  ((cs.dropWhile isPySpace).reverse.dropWhile isPySpace).reverse

/-- `str.lower` on a whole string. -/
def strLower (s : String) : String := String.mk (s.data.map pyLower)

/-- `str.strip` on a whole string. -/
def pyStrip (s : String) : String := String.mk (stripChars s.data)

/-- Helper for `splitWords`: `acc` is the reversed word currently being read. -/
def splitWordsAux : List Char → List Char → List (List Char)
  | acc, [] => if acc.isEmpty then [] else [acc.reverse]
  | acc, c :: cs =>
    if isPySpace c then
      if acc.isEmpty then splitWordsAux [] cs
      else acc.reverse :: splitWordsAux [] cs
    else splitWordsAux (c :: acc) cs

/-- Python's argumentless `str.split`: split on runs of whitespace,
discarding empty pieces. -/
def splitWords (cs : List Char) : List (List Char) := splitWordsAux [] cs

/-- Join a list of words with single spaces: Python's `' '.join`. -/
def joinWords : List (List Char) → List Char
  | [] => []
  | [w] => w
  | w :: ws => w ++ ' ' :: joinWords ws

/-! ### Levenshtein distance

`Levenshtein.distance` from the python-Levenshtein library: the classic
unit-cost edit distance (insertions, deletions, substitutions). -/

def levenshtein : List Char → List Char → Nat
  | [], ys => ys.length
  | x :: xs, [] => (x :: xs).length
  | x :: xs, y :: ys =>
    if x = y then levenshtein xs ys
    else 1 + min (levenshtein xs ys)
          (min (levenshtein (x :: xs) ys) (levenshtein xs (y :: ys)))
termination_by xs ys => xs.length + ys.length

unseal levenshtein

/-- The normalized similarity used throughout `fast_corrector.py`:
`1 - distance / max(len(a), len(b), 1)`. -/
def simQ (a b : List Char) : ℚ :=
  1 - (levenshtein a b : ℚ) / (max a.length (max b.length 1) : ℚ)

theorem levenshtein_le_max (xs ys : List Char) :
    levenshtein xs ys ≤ max xs.length ys.length := by
  induction xs, ys using levenshtein.induct
  case case1 ys => simp [levenshtein]
  case case2 x xs => simp [levenshtein]
  case case3 xs y ys ih =>
    rw [levenshtein, if_pos rfl]
    refine ih.trans ?_
    simp only [List.length_cons]
    omega
  case case4 x xs y ys h ih1 ih2 ih3 =>
    rw [levenshtein, if_neg h]
    simp only [List.length_cons] at ih1 ih2 ih3 ⊢
    omega

theorem simQ_mem_unit (a b : List Char) : 0 ≤ simQ a b ∧ simQ a b ≤ 1 := by
  unfold simQ
  set M : ℚ := max (a.length : ℚ) (max (b.length : ℚ) 1) with hM
  have hm : (1 : ℚ) ≤ M := le_max_of_le_right (le_max_right _ _)
  have hmpos : (0 : ℚ) < M := lt_of_lt_of_le one_pos hm
  constructor
  · have hlm : (levenshtein a b : ℚ) ≤ max (a.length : ℚ) (b.length : ℚ) := by
      have h2 := levenshtein_le_max a b
      have h3 : (levenshtein a b : ℚ) ≤ ((max a.length b.length : ℕ) : ℚ) := by
        exact_mod_cast h2
      refine h3.trans ?_
      rw [Nat.cast_max]
    have hle : (levenshtein a b : ℚ) ≤ M :=
      hlm.trans (max_le_max le_rfl (le_max_left _ _))
    have := div_le_one_of_le₀ hle (le_of_lt hmpos)
    linarith
  · have h0 : (0 : ℚ) ≤ (levenshtein a b : ℚ) := by positivity
    have := div_nonneg h0 (le_of_lt hmpos)
    linarith

/-! ### FTS5 query sanitization (`FastAddressCorrector._escape_fts5` and
`escape_fts5_query` in `advanced_search.py`, which use the same regex) -/

/-- The character class of the sanitization regex in `_escape_fts5` /
`escape_fts5_query`, as unicode code points: quote, star, parentheses,
minus, plus, slash, caret, backslash, square and curly brackets, pipe,
angle brackets, dot, colon, semicolon, comma, bang, question mark, at,
hash, dollar, percent, ampersand, equals, tilde, backquote, apostrophe. -/
def fts5SpecialCodes : List Nat :=
  [34, 42, 40, 41, 45, 43, 47, 94, 92, 91, 93, 123, 125, 124, 60, 62,
   46, 58, 59, 44, 33, 63, 64, 35, 36, 37, 38, 61, 126, 96, 39]

def isFts5Special (c : Char) : Bool := fts5SpecialCodes.contains c.toNat

/-- Helper for `collapseSpaces`: the flag records whether the previous
character was whitespace (so a run of whitespace emits a single space). -/
def collapseSpacesAux : Bool → List Char → List Char
  | _, [] => []
  | prevSpace, c :: cs =>
    if isPySpace c then
      if prevSpace then collapseSpacesAux true cs
      else ' ' :: collapseSpacesAux true cs
    else c :: collapseSpacesAux false cs

/-- The regex substitution turning each run of whitespace into a single
space. -/
def collapseSpaces (cs : List Char) : List Char := collapseSpacesAux false cs

/-- `FastAddressCorrector._escape_fts5`: replace every FTS5-reserved
character by a space, collapse whitespace runs, and strip the ends. -/
def escapeFts5 (text : String) : String :=
  if text = "" then text
  else
    let replaced := text.data.map (fun c => if isFts5Special c then ' ' else c)
    String.mk (stripChars (collapseSpaces replaced))

/-! ### The external FTS5 store

The SQLite FTS5 engine itself is not part of this repository; the
dictionary tables and their `MATCH` behaviour are modelled as explicit
parameters and a query-validity predicate. -/

/-- Modelled from the spec: the prefix-index query language (SQLite FTS5)
is an external collaborator; section 7 of the spec says special characters
"would break the prefix-index query language" (`MalformedQuerySyntax`).
A prefix query is a term followed by a star, and the engine rejects a
query whose term is empty — a bare star is malformed syntax and executing
it raises an operational error. -/
def fts5PrefixTermValid (term : String) : Bool := term ≠ ""

/-- Executing `... MATCH ?` with the prefix query `term ++ "*"` against a
dictionary FTS table. The table's answer (already ordered by bm25 and
limited) is the function `store`; a malformed query raises, modelled as
`Except.error`. -/
def runDictFts {ρ : Type} (store : String → Nat → List ρ) (term : String)
    (n : Nat) : Except String (List ρ) :=
  if fts5PrefixTermValid term then Except.ok (store (term ++ "*") n)
  else Except.error "fts5: syntax error near star"

/-! ### `FastAddressCorrector.correct_street` / `correct_city` -/

/-- A row of the `street_dictionary` table (the fields read by the code). -/
structure StreetRow where
  street_name : String
  normalized_name : String
  usage_count : Nat
deriving DecidableEq, Repr

/-- A row of the `city_dictionary` table. -/
structure CityRow where
  city_name : String
  normalized_name : String
  usage_count : Nat
deriving DecidableEq, Repr

/-- A result dict appended to `results` in `correct_street`. -/
structure StreetCand where
  street_name : String
  normalized_name : String
  similarity : ℚ
  usage_count : Nat
  bm25_score : ℚ
deriving DecidableEq, Repr

/-- A result dict appended to `results` in `correct_city`. -/
structure CityCand where
  city_name : String
  normalized_name : String
  similarity : ℚ
  usage_count : Nat
  bm25_score : ℚ
deriving DecidableEq, Repr

/-- The `street_prefixes` list of `correct_street` (administrative tokens
excluded from the per-word similarity). -/
def street_prefixes : List String :=
  ["улица", "проспект", "пр-кт", "пр", "переулок", "пер", "бульвар", "б-р",
   "набережная", "наб", "шоссе", "ш", "площадь", "пл", "проезд", "тупик", "туп"]

/-- The best similarity of the query against a street dictionary entry:
the similarity with the full normalized name, and, for multi-word names,
the maximum over the similarity with each constituent word that is not an
administrative-prefix token. -/
def bestStreetSimilarity (queryLower : String) (normalized : String) : ℚ :=
  let base := simQ queryLower.data normalized.data
  let normalizedParts := splitWords normalized.data
  if 1 < normalizedParts.length then
    normalizedParts.foldl
      (fun best part =>
        if street_prefixes.contains (String.mk part) then best
        else max best (simQ queryLower.data part))
      base
  else base

def mkStreetCand (row : StreetRow) (s : ℚ) : StreetCand :=
  { street_name := row.street_name, normalized_name := row.normalized_name,
    similarity := s, usage_count := row.usage_count, bm25_score := 0 }

/-- The candidate loop of `correct_street`: filter by `min_similarity`,
counting high-confidence matches (similarity at least `0.8`) and breaking
out once `limit * 2` of them have been collected. -/
def streetScan (queryLower : String) (minSim : ℚ) (limit : Nat) :
    List StreetRow → Nat → List StreetCand
  | [], _ => []
  | row :: rest, goodMatches =>
    let s := bestStreetSimilarity queryLower row.normalized_name
    if minSim ≤ s then
      if (4 : ℚ) / 5 ≤ s then
        if limit * 2 ≤ goodMatches + 1 then [mkStreetCand row s]
        else mkStreetCand row s :: streetScan queryLower minSim limit rest (goodMatches + 1)
      else mkStreetCand row s :: streetScan queryLower minSim limit rest goodMatches
    else streetScan queryLower minSim limit rest goodMatches

/-- The blended ranking key `similarity * 0.7 + min(usage_count / 1000, 1.0) * 0.3`. -/
def blendedScore (similarity : ℚ) (usage_count : Nat) : ℚ :=
  similarity * (7 / 10) + min ((usage_count : ℚ) / 1000) 1 * (3 / 10)

/-- `correct_street`. The street dictionary table, as enumerated by the
fallback query `ORDER BY usage_count DESC`, is the parameter `dict`; the
FTS index answer is the parameter `store`. -/
def correct_street (store : String → Nat → List StreetRow)
    (dict : List StreetRow) (query : String) (limit : Nat) (minSim : ℚ) :
    Except String (List StreetCand) :=
  if query.length < 2 then Except.ok []
  else
    match runDictFts store (escapeFts5 query) (limit * 3) with
    | Except.error e => Except.error e
    | Except.ok fts =>
      let candidates := if fts.isEmpty then dict else fts
      let results := streetScan (strLower query) minSim limit candidates 0
      Except.ok
        ((results.mergeSort
          (fun a b => decide (blendedScore b.similarity b.usage_count ≤
                              blendedScore a.similarity a.usage_count))).take limit)

/-- The candidate loop of `correct_city`: plain filter by `min_similarity`
(no per-word similarity, no early exit). -/
def cityScan (queryLower : String) (minSim : ℚ) (rows : List CityRow) :
    List CityCand :=
  rows.filterMap (fun row =>
    let s := simQ queryLower.data row.normalized_name.data
    if minSim ≤ s then
      some { city_name := row.city_name, normalized_name := row.normalized_name,
             similarity := s, usage_count := row.usage_count, bm25_score := 0 }
    else none)

/-- `correct_city`. The fallback query takes the top 30 cities by usage
(`LIMIT 30` over the usage-ordered table `dict`). -/
def correct_city (store : String → Nat → List CityRow)
    (dict : List CityRow) (query : String) (limit : Nat) (minSim : ℚ) :
    Except String (List CityCand) :=
  if query.length < 2 then Except.ok []
  else
    match runDictFts store (escapeFts5 query) (limit * 3) with
    | Except.error e => Except.error e
    | Except.ok fts =>
      let candidates := if fts.isEmpty then dict.take 30 else fts
      let results := cityScan (strLower query) minSim candidates
      Except.ok
        ((results.mergeSort
          (fun a b => decide (blendedScore b.similarity b.usage_count ≤
                              blendedScore a.similarity a.usage_count))).take limit)

/-! ### `FastAddressCorrector.correct_full_address` -/

/-- The parsed components dict (`city`, `road`, `house_number`). -/
structure Components where
  city : String
  road : String
  house_number : String
deriving DecidableEq, Repr

/-- `correct_full_address`: correct city and street through the
dictionaries (limit 1, threshold 0.7), keep a component unchanged when the
top correction is not strictly below similarity 1, and join the parts with
commas; with no parts at all, return the original address unchanged. -/
def correct_full_address (storeS : String → Nat → List StreetRow)
    (storeC : String → Nat → List CityRow)
    (dictS : List StreetRow) (dictC : List CityRow)
    (address : String) (components : Components) :
    Except String (String × Bool) :=
  let city := pyStrip components.city
  let street := pyStrip components.road
  let house := pyStrip components.house_number
  let cityStep : Except String (List String × Bool) :=
    if city ≠ "" then
      match correct_city storeC dictC city 1 (7 / 10) with
      | Except.error e => Except.error e
      | Except.ok (c :: _) =>
        if c.similarity < 1 then Except.ok ([c.city_name], true)
        else Except.ok ([city], false)
      | Except.ok [] => Except.ok ([city], false)
    else Except.ok ([], false)
  match cityStep with
  | Except.error e => Except.error e
  | Except.ok (cityParts, cityFlag) =>
    let streetStep : Except String (List String × Bool) :=
      if street ≠ "" then
        match correct_street storeS dictS street 1 (7 / 10) with
        | Except.error e => Except.error e
        | Except.ok (s :: _) =>
          if s.similarity < 1 then Except.ok ([s.street_name], true)
          else Except.ok ([street], false)
        | Except.ok [] => Except.ok ([street], false)
      else Except.ok ([], false)
    match streetStep with
    | Except.error e => Except.error e
    | Except.ok (streetParts, streetFlag) =>
      let parts := cityParts ++ streetParts ++ (if house ≠ "" then [house] else [])
      let corrected := if parts.isEmpty then address else String.intercalate ", " parts
      Except.ok (corrected, cityFlag || streetFlag)

/-! ### The correction orchestrator (`grpc_server.correct_address`) -/

inductive CorrectionSource where
  | EXACT_MATCH
  | FUZZY_MATCH
  | SQLITE_DATABASE
  | LIBPOSTAL_NORMALIZATION
deriving DecidableEq, Repr

/-- `determine_correction_source`. -/
def determine_correction_source (similarity : ℚ) : CorrectionSource :=
  if (19 : ℚ) / 20 ≤ similarity then CorrectionSource.EXACT_MATCH
  else if (7 : ℚ) / 10 ≤ similarity then CorrectionSource.FUZZY_MATCH
  else if (1 : ℚ) / 2 ≤ similarity then CorrectionSource.SQLITE_DATABASE
  else CorrectionSource.LIBPOSTAL_NORMALIZATION

/-- A suggestion dict produced by `correct_address` (the fields the claims
touch: the components dict is either a city or a road entry, and the
coordinates are constant zeros, so they are not modelled separately). -/
structure Suggestion where
  corrected_address : String
  similarity_score : ℚ
  comp_city : String
  comp_road : String
  source : CorrectionSource
deriving DecidableEq, Repr

def streetSugg (c : StreetCand) : Suggestion :=
  { corrected_address := c.street_name, similarity_score := c.similarity,
    comp_city := "", comp_road := c.street_name,
    source := determine_correction_source c.similarity }

def citySugg (c : CityCand) : Suggestion :=
  { corrected_address := c.city_name, similarity_score := c.similarity,
    comp_city := c.city_name, comp_road := "",
    source := determine_correction_source c.similarity }

/-- The result dict of `correct_address`. -/
structure CorrectResult where
  corrected_address : String
  suggestions : List Suggestion
  was_corrected : Bool
  variants_checked : Nat
deriving DecidableEq, Repr

/-- `grpc_server.correct_address`: the parsed components come from the
external libpostal parser and are a parameter here. City corrections are
collected first, then street corrections; when the parser produced neither
a city nor a road, the full raw query is searched against both
dictionaries instead. The pool is sorted by similarity (descending,
stable), the best entry becomes the corrected address, and the pool is
truncated to `max_suggestions`. -/
def correct_address (storeS : String → Nat → List StreetRow)
    (storeC : String → Nat → List CityRow)
    (dictS : List StreetRow) (dictC : List CityRow)
    (original_address : String) (max_suggestions : Nat) (min_similarity : ℚ)
    (components : Components) : Except String CorrectResult :=
  let city := pyStrip components.city
  let street := pyStrip components.road
  let cityRes : Except String (List Suggestion) :=
    if city ≠ "" then
      (correct_city storeC dictC city max_suggestions min_similarity).map
        (List.map citySugg)
    else Except.ok []
  match cityRes with
  | Except.error e => Except.error e
  | Except.ok citySuggs =>
    let streetRes : Except String (List Suggestion) :=
      if street ≠ "" then
        (correct_street storeS dictS street max_suggestions min_similarity).map
          (List.map streetSugg)
      else Except.ok []
    match streetRes with
    | Except.error e => Except.error e
    | Except.ok streetSuggs =>
      let directRes : Except String (List Suggestion) :=
        if city = "" ∧ street = "" then
          match correct_street storeS dictS original_address max_suggestions min_similarity with
          | Except.error e => Except.error e
          | Except.ok sc =>
            match correct_city storeC dictC original_address max_suggestions min_similarity with
            | Except.error e => Except.error e
            | Except.ok cc => Except.ok (sc.map streetSugg ++ cc.map citySugg)
        else Except.ok []
      match directRes with
      | Except.error e => Except.error e
      | Except.ok directSuggs =>
        let pool := citySuggs ++ streetSuggs ++ directSuggs
        let sorted := pool.mergeSort
          (fun a b => decide (b.similarity_score ≤ a.similarity_score))
        match sorted with
        | [] =>
          Except.ok { corrected_address := original_address, suggestions := [],
                      was_corrected := false, variants_checked := 0 }
        | best :: _ =>
          let final := sorted.take max_suggestions
          Except.ok { corrected_address := best.corrected_address,
                      suggestions := final,
                      was_corrected := strLower best.corrected_address ≠ strLower original_address,
                      variants_checked := final.length }

/-! ### `advanced_search.normalize_address_for_comparison` -/

/-- The `service_words` list (FIAS administrative tokens and their
abbreviations). -/
def service_words : List String :=
  ["улица", "ул.", "ул", "проспект", "пр-кт", "пр.", "пр",
   "переулок", "пер.", "пер", "бульвар", "б-р", "бул.",
   "набережная", "наб.", "наб", "шоссе", "ш.", "ш",
   "площадь", "пл.", "пл", "проезд", "пр-д", "тупик", "туп.",
   "дом", "д.", "д", "здание", "зд.", "зд",
   "строение", "стр.", "стр", "корпус", "к.", "к",
   "владение", "влд.", "влд",
   "город", "г.", "г"]

/-- The regex substitution `[,;:] -> space` of
`normalize_address_for_comparison`, character by character. -/
def removePunct (c : Char) : Char :=
  if c = ',' || c = ';' || c = ':' then ' ' else c

def isDigitChar (c : Char) : Bool :=
  decide (48 ≤ c.toNat) && decide (c.toNat ≤ 57)

/-- A lowercase Cyrillic letter in the range of the regex class `[а-я]`. -/
def isRusLowerAZ (c : Char) : Bool :=
  decide (0x430 ≤ c.toNat) && decide (c.toNat ≤ 0x44f)

/-- Tail of the house-number regex: the optional group `к` + digits,
then end of string. -/
def tailKOpt (cs : List Char) : Bool :=
  cs.isEmpty ||
  (match cs with
   | c :: rest =>
     c = 'к' && !(rest.takeWhile isDigitChar).isEmpty &&
       (rest.dropWhile isDigitChar).isEmpty
   | [] => false)

/-- Tail of the house-number regex: optional `/` + digits, then `tailKOpt`. -/
def tailSlashOpt (cs : List Char) : Bool :=
  tailKOpt cs ||
  (match cs with
   | c :: rest =>
     c = '/' && !(rest.takeWhile isDigitChar).isEmpty &&
       tailKOpt (rest.dropWhile isDigitChar)
   | [] => false)

/-- Tail of the house-number regex: optional letter `[а-я]`, then
`tailSlashOpt`. -/
def tailLetterOpt (cs : List Char) : Bool :=
  tailSlashOpt cs ||
  (match cs with
   | c :: rest => isRusLowerAZ c && tailSlashOpt rest
   | [] => false)

/-- The house-number regex of `normalize_address_for_comparison`:
digits, an optional Cyrillic letter, an optional `/` + digits, an
optional `к` + digits (e.g. `10`, `10а`, `10/2`, `10к1`). -/
def isHouseNumberToken (w : List Char) : Bool :=
  !(w.takeWhile isDigitChar).isEmpty && tailLetterOpt (w.dropWhile isDigitChar)

/-- Python's string comparison (the `list.sort` order): lexicographic by
code point. -/
def tokLe : List Char → List Char → Bool
  | [], _ => true
  | _ :: _, [] => false
  | a :: as, b :: bs => if a = b then tokLe as bs else decide (a < b)

/-- The token list that `normalize_address_for_comparison` extracts before
filtering: lowercase, strip, punctuation to spaces, split on whitespace. -/
def comparisonTokens (address : String) : List (List Char) :=
  splitWords ((stripChars (address.data.map pyLower)).map removePunct)

/-- Whether the word filter of `normalize_address_for_comparison` keeps a
token: not a service word, and (when `remove_house_number` is set) not a
house-number-shaped token. -/
def keepToken (remove_house_number : Bool) (w : List Char) : Bool :=
  !(service_words.contains (String.mk w)) &&
    (!remove_house_number || !isHouseNumberToken w)

/-- `normalize_address_for_comparison`: lowercase and strip, replace
`[,;:]` by spaces, split into words, drop service words (and optionally
house numbers), sort the remaining words, and join them with spaces. -/
def normalize_address_for_comparison (address : String)
    (remove_house_number : Bool) : String :=
  if address = "" then ""
  else
    let filtered := (comparisonTokens address).filter (keepToken remove_house_number)
    String.mk (joinWords (filtered.mergeSort tokLe))

/-! ### `AdvancedSearchEngine.search` -/

/-- A row of the `buildings` table joined with its FTS index (the `tags`
JSON column is not modelled: the code only parses it into the result). -/
structure BRow where
  city : String
  street : String
  housenumber : String
  lat : ℚ
  lon : ℚ
  full_address : String
  bm25_score : ℚ
deriving DecidableEq, Repr

/-- A result dict of `AdvancedSearchEngine.search`. -/
structure SearchResult where
  locality : String
  street : String
  number : String
  lat : ℚ
  lon : ℚ
  score : ℚ
  full_address : String
  lev_score : ℚ
deriving DecidableEq, Repr

/-- Python's substring test `small in big`. -/
def containsSub (small big : List Char) : Bool :=
  big.tails.any (fun t => small.isPrefixOf t)

/-- `max_bm25 = abs(rows[0]['bm25_score']) if rows else 1.0`. -/
def maxBm25Of (rows : List BRow) : ℚ :=
  match rows with
  | [] => 1
  | r :: _ => |r.bm25_score|

/-- Signal 1 of the ranking engine: the bm25 relevance, min-max normalized
against the best (first) row of the candidate set. -/
def normalizedBm25 (maxBm25 : ℚ) (row : BRow) : ℚ :=
  let bm := |row.bm25_score|
  if 0 < maxBm25 then min (bm / maxBm25) 1 else 0

/-- Signal 2 of the ranking engine: normalized Levenshtein similarity
between the normalized full address of the row and the normalized original
query. -/
def levScoreOf (original_address : String) (row : BRow) : ℚ :=
  let p := normalize_address_for_comparison row.full_address false
  let o := normalize_address_for_comparison original_address false
  let d := levenshtein p.data o.data
  let m := max p.data.length (max o.data.length 1)
  if 0 < m then 1 - (d : ℚ) / (m : ℚ) else 0

/-- The city contribution to `component_matches`. -/
def cityMatchQ (city : String) (row : BRow) : ℚ :=
  if row.city ≠ "" ∧ strLower city = strLower row.city then 1
  else if row.city ≠ "" ∧ containsSub (strLower city).data (strLower row.city).data then 1 / 2
  else 0

/-- The street contribution to `component_matches`. -/
def streetMatchQ (street : String) (row : BRow) : ℚ :=
  let sn := normalize_address_for_comparison street false
  let dn := normalize_address_for_comparison row.street false
  if sn = dn then 1
  else if sn ≠ "" ∧ dn ≠ "" ∧ containsSub sn.data dn.data then 7 / 10
  else 0

/-- The house-number contribution to `component_matches` (including the
`-0.3` penalty for a candidate without a house number). -/
def houseMatchQ (house : String) (row : BRow) : ℚ :=
  if row.housenumber ≠ "" ∧ house = row.housenumber then 1
  else if row.housenumber ≠ "" ∧ containsSub house.data row.housenumber.data then 1 / 2
  else if row.housenumber = "" then -(3 / 10)
  else 0

/-- Signal 3 of the ranking engine: `component_matches / total_components`
over the non-empty query components, `0.0` when there are none. -/
def componentScoreOf (city street house : String) (row : BRow) : ℚ :=
  let matchSum := (if city ≠ "" then cityMatchQ city row else 0) +
    (if street ≠ "" then streetMatchQ street row else 0) +
    (if house ≠ "" then houseMatchQ house row else 0)
  let total : Nat := (if city ≠ "" then 1 else 0) +
    (if street ≠ "" then 1 else 0) + (if house ≠ "" then 1 else 0)
  if 0 < total then matchSum / (total : ℚ) else 0

/-- The weighted final score with the hard-coded default weights
`0.25 * lev + 0.60 * component + 0.15 * bm25`. -/
def finalScoreOf (city street house : String) (original_address : String)
    (maxBm25 : ℚ) (row : BRow) : ℚ :=
  (1 / 4) * levScoreOf original_address row +
  (3 / 5) * componentScoreOf city street house row +
  (3 / 20) * normalizedBm25 maxBm25 row

/-- The result dict built for one row. -/
def mkSearchResult (city street house : String) (original_address : String)
    (maxBm25 : ℚ) (row : BRow) : SearchResult :=
  { locality := row.city, street := row.street, number := row.housenumber,
    lat := row.lat, lon := row.lon,
    score := finalScoreOf city street house original_address maxBm25 row,
    full_address := row.full_address,
    lev_score := levScoreOf original_address row }

/-- The FTS query parts: each non-empty (escaped) component as a prefix
term; with no components, the words of the escaped lowercase original
address that are longer than 2 characters. -/
def buildQueryParts (city street house : String) (original_address : String) :
    List String :=
  let base := (if city ≠ "" then [city ++ "*"] else []) ++
    (if street ≠ "" then [street ++ "*"] else []) ++
    (if house ≠ "" then [house ++ "*"] else [])
  if base ≠ [] then base
  else
    (splitWords (escapeFts5 (strLower original_address)).data).filterMap
      (fun w => if 2 < w.length then some (String.mk w ++ "*") else none)

/-- The FTS query string `" ".join(fts_query_parts)` built by `search`
from the stripped, escaped components. -/
def searchQuery (components : Components) (original_address : String) :
    List String :=
  buildQueryParts (escapeFts5 (pyStrip components.city))
    (escapeFts5 (pyStrip components.road))
    (escapeFts5 (pyStrip components.house_number)) original_address

/-- `AdvancedSearchEngine.search`: escape the components, build the FTS
query, fetch `limit * 2` rows from the store (the `buildings` table with
its FTS index, a parameter), score every row with the three weighted
signals, sort descending by score and keep the top `limit`. -/
def search (store : String → Nat → List BRow) (components : Components)
    (original_address : String) (limit : Nat) : List SearchResult :=
  let city := escapeFts5 (pyStrip components.city)
  let street := escapeFts5 (pyStrip components.road)
  let house := escapeFts5 (pyStrip components.house_number)
  let parts := searchQuery components original_address
  if parts = [] then []
  else
    let rows := store (String.intercalate " " parts) (limit * 2)
    if rows = [] then []
    else
      let maxBm := maxBm25Of rows
      let results := rows.map (mkSearchResult city street house original_address maxBm)
      (results.mergeSort (fun a b => decide (b.score ≤ a.score))).take limit

/-! ### Generic helper lemmas about descending sorts -/

theorem descBy_trans {α : Type} (f : α → ℚ) :
    ∀ a b c : α, (fun a b => decide (f b ≤ f a)) a b →
      (fun a b => decide (f b ≤ f a)) b c → (fun a b => decide (f b ≤ f a)) a c := by
  intro a b c hab hbc
  simp only [decide_eq_true_eq] at *
  exact le_trans hbc hab

theorem descBy_total {α : Type} (f : α → ℚ) :
    ∀ a b : α, ((fun a b => decide (f b ≤ f a)) a b ||
      (fun a b => decide (f b ≤ f a)) b a) := by
  intro a b
  simp only [Bool.or_eq_true, decide_eq_true_eq]
  exact le_total _ _

/-- A merge sort by a descending rational key is pairwise descending. -/
theorem pairwise_mergeSort_descBy {α : Type} (f : α → ℚ) (l : List α) :
    (l.mergeSort (fun a b => decide (f b ≤ f a))).Pairwise (fun a b => f b ≤ f a) := by
  have h := List.sorted_mergeSort (descBy_trans f) (descBy_total f) l
  exact h.imp (fun hab => of_decide_eq_true hab)

theorem pairwise_take {α : Type} {r : α → α → Prop} {l : List α}
    (h : l.Pairwise r) (n : Nat) : (l.take n).Pairwise r :=
  h.sublist (List.take_sublist n l)

/-! ### Lemmas about the fallback scans -/

/-- Every candidate the `correct_street` loop emits comes from a row of the
scanned list, carries exactly the best similarity of that row, and that
similarity clears the threshold. -/
theorem streetScan_mem {queryLower : String} {minSim : ℚ} {limit : Nat} :
    ∀ (rows : List StreetRow) (good : Nat) (r : StreetCand),
      r ∈ streetScan queryLower minSim limit rows good →
      ∃ row ∈ rows, r = mkStreetCand row (bestStreetSimilarity queryLower row.normalized_name) ∧
        minSim ≤ bestStreetSimilarity queryLower row.normalized_name := by
  intro rows
  induction rows with
  | nil => intro good r hr; simp [streetScan] at hr
  | cons row rest ih =>
    intro good r hr
    simp only [streetScan] at hr
    by_cases hacc : minSim ≤ bestStreetSimilarity queryLower row.normalized_name
    · rw [if_pos hacc] at hr
      by_cases hgood : (4 : ℚ) / 5 ≤ bestStreetSimilarity queryLower row.normalized_name
      · rw [if_pos hgood] at hr
        by_cases hcount : limit * 2 ≤ good + 1
        · rw [if_pos hcount] at hr
          simp only [List.mem_singleton] at hr
          exact ⟨row, List.mem_cons_self _ _, hr, hacc⟩
        · rw [if_neg hcount] at hr
          rcases List.mem_cons.mp hr with h | h
          · exact ⟨row, List.mem_cons_self _ _, h, hacc⟩
          · obtain ⟨row', hm, he, hs⟩ := ih _ r h
            exact ⟨row', List.mem_cons_of_mem _ hm, he, hs⟩
      · rw [if_neg hgood] at hr
        rcases List.mem_cons.mp hr with h | h
        · exact ⟨row, List.mem_cons_self _ _, h, hacc⟩
        · obtain ⟨row', hm, he, hs⟩ := ih _ r h
          exact ⟨row', List.mem_cons_of_mem _ hm, he, hs⟩
    · rw [if_neg hacc] at hr
      obtain ⟨row', hm, he, hs⟩ := ih _ r hr
      exact ⟨row', List.mem_cons_of_mem _ hm, he, hs⟩

/-- Every candidate the `correct_city` loop emits comes from a scanned row,
carries exactly that row's similarity, and clears the threshold. -/
theorem cityScan_mem {queryLower : String} {minSim : ℚ} {rows : List CityRow}
    {r : CityCand} (hr : r ∈ cityScan queryLower minSim rows) :
    ∃ row ∈ rows, r.similarity = simQ queryLower.data row.normalized_name.data ∧
      minSim ≤ r.similarity := by
  simp only [cityScan, List.mem_filterMap] at hr
  obtain ⟨row, hm, hr⟩ := hr
  by_cases hs : minSim ≤ simQ queryLower.data row.normalized_name.data
  · rw [if_pos hs] at hr
    cases hr
    exact ⟨row, hm, rfl, hs⟩
  · rw [if_neg hs] at hr
    cases hr

/-! ### Claim C6 -/

/-- C6: for every query string that is empty or of length strictly less
than 2, `correct_street` and `correct_city` return an empty result list
and never raise an error. -/
theorem C6_short_query_empty (storeS : String → Nat → List StreetRow)
    (storeC : String → Nat → List CityRow) (dictS : List StreetRow)
    (dictC : List CityRow) (query : String) (limit : Nat) (minSim : ℚ)
    (hq : query.length < 2) :
    correct_street storeS dictS query limit minSim = Except.ok [] ∧
    correct_city storeC dictC query limit minSim = Except.ok [] := by
  constructor
  · simp [correct_street, hq]
  · simp [correct_city, hq]

theorem C6_short_query_empty_witness :
    correct_street (fun _ _ => []) [] "a" 5 (6 / 10) = Except.ok [] ∧
    correct_city (fun _ _ => []) [] "a" 5 (6 / 10) = Except.ok [] :=
  C6_short_query_empty (fun _ _ => []) (fun _ _ => []) [] [] "a" 5 (6 / 10)
    (by decide)

/-! ### Claim C3 -/

/-- C3: in the edit-distance fallback scan of `correct_street`, once the
count of accepted high-confidence candidates (best similarity at least
0.8) reaches `2 * limit`, the scan stops: the result does not depend on
the remaining dictionary entries, so no further candidate is examined. -/
theorem C3_early_exit_stops_scan (queryLower : String) (minSim : ℚ)
    (limit good : Nat) (row : StreetRow) (rest rest' : List StreetRow)
    (hacc : minSim ≤ bestStreetSimilarity queryLower row.normalized_name)
    (hgood : (4 : ℚ) / 5 ≤ bestStreetSimilarity queryLower row.normalized_name)
    (hcount : limit * 2 ≤ good + 1) :
    streetScan queryLower minSim limit (row :: rest) good =
    streetScan queryLower minSim limit (row :: rest') good := by
  simp only [streetScan, if_pos hacc, if_pos hgood, if_pos hcount]

theorem C3_early_exit_stops_scan_witness :
    ((0 : ℚ) ≤ bestStreetSimilarity "ab" "ab" ∧
     (4 : ℚ) / 5 ≤ bestStreetSimilarity "ab" "ab" ∧ 1 * 2 ≤ 1 + 1) ∧
    streetScan "ab" 0 1 [⟨"Ab", "ab", 3⟩, ⟨"Cd", "cd", 7⟩] 1 =
    streetScan "ab" 0 1 [⟨"Ab", "ab", 3⟩] 1 := by
  have hsim : bestStreetSimilarity "ab" "ab" = 1 := by
    have hlev : levenshtein "ab".data "ab".data = 0 := by decide
    have hparts : ¬ 1 < (splitWords "ab".data).length := by decide
    simp [bestStreetSimilarity, hparts, simQ, hlev]
  refine ⟨⟨by rw [hsim]; norm_num, by rw [hsim]; norm_num, by norm_num⟩, ?_⟩
  exact C3_early_exit_stops_scan "ab" 0 1 1 ⟨"Ab", "ab", 3⟩ [⟨"Cd", "cd", 7⟩] []
    (by rw [hsim]; norm_num) (by rw [hsim]; norm_num) (by norm_num)

/-! ### Claim C5 -/

/-- C5 (bug evidence): a query of length at least 2 whose sanitization is
empty does not return an empty result: the constructed FTS query is a bare
star, which the prefix-index engine rejects as malformed syntax, so
`correct_street` and `correct_city` raise an error instead. -/
theorem C5_empty_sanitized_query_raises
    (storeS : String → Nat → List StreetRow)
    (storeC : String → Nat → List CityRow) (dictS : List StreetRow)
    (dictC : List CityRow) (query : String) (limit : Nat) (minSim : ℚ)
    (hlen : ¬ query.length < 2) (hesc : escapeFts5 query = "") :
    correct_street storeS dictS query limit minSim =
      Except.error "fts5: syntax error near star" ∧
    correct_city storeC dictC query limit minSim =
      Except.error "fts5: syntax error near star" := by
  constructor
  · simp [correct_street, hlen, runDictFts, hesc, fts5PrefixTermValid]
  · simp [correct_city, hlen, runDictFts, hesc, fts5PrefixTermValid]

theorem C5_empty_sanitized_query_raises_witness :
    (¬ ("!!" : String).length < 2 ∧ escapeFts5 "!!" = "") ∧
    correct_street (fun _ _ => []) [] "!!" 5 (6 / 10) =
      Except.error "fts5: syntax error near star" :=
  ⟨⟨by decide, by decide⟩,
   (C5_empty_sanitized_query_raises (fun _ _ => []) (fun _ _ => []) [] []
     "!!" 5 (6 / 10) (by decide) (by decide)).1⟩

/-! ### Shape lemmas: a successful correction is a truncated descending sort -/

theorem correct_street_ok_shape {storeS : String → Nat → List StreetRow}
    {dictS : List StreetRow} {query : String} {limit : Nat} {minSim : ℚ}
    {res : List StreetCand}
    (hok : correct_street storeS dictS query limit minSim = Except.ok res) :
    ∃ l : List StreetCand,
      res = (l.mergeSort (fun a b =>
        decide (blendedScore b.similarity b.usage_count ≤
                blendedScore a.similarity a.usage_count))).take limit := by
  by_cases hlen : query.length < 2
  · refine ⟨[], ?_⟩
    simp only [correct_street, if_pos hlen, Except.ok.injEq] at hok
    simp [← hok]
  · simp only [correct_street, if_neg hlen, runDictFts] at hok
    by_cases hterm : fts5PrefixTermValid (escapeFts5 query) = true
    · rw [if_pos hterm] at hok
      simp only [Except.ok.injEq] at hok
      exact ⟨_, hok.symm⟩
    · rw [if_neg hterm] at hok
      cases hok

theorem correct_city_ok_shape {storeC : String → Nat → List CityRow}
    {dictC : List CityRow} {query : String} {limit : Nat} {minSim : ℚ}
    {res : List CityCand}
    (hok : correct_city storeC dictC query limit minSim = Except.ok res) :
    ∃ l : List CityCand,
      res = (l.mergeSort (fun a b =>
        decide (blendedScore b.similarity b.usage_count ≤
                blendedScore a.similarity a.usage_count))).take limit := by
  by_cases hlen : query.length < 2
  · refine ⟨[], ?_⟩
    simp only [correct_city, if_pos hlen, Except.ok.injEq] at hok
    simp [← hok]
  · simp only [correct_city, if_neg hlen, runDictFts] at hok
    by_cases hterm : fts5PrefixTermValid (escapeFts5 query) = true
    · rw [if_pos hterm] at hok
      simp only [Except.ok.injEq] at hok
      exact ⟨_, hok.symm⟩
    · rw [if_neg hterm] at hok
      cases hok

/-! ### Claim C2 -/

/-- C2: every candidate returned by the edit-distance fallback of
`correct_street` (respectively `correct_city`) has its reported similarity
at least `min_similarity`, and that similarity is exactly the normalized
edit-distance similarity of the query against the dictionary entry — for
streets, the best over the full normalized name and its non-prefix
constituent words. -/
theorem C2_fallback_similarity_at_least_min :
    (∀ (storeS : String → Nat → List StreetRow) (dictS : List StreetRow)
       (query : String) (limit : Nat) (minSim : ℚ) (res : List StreetCand),
      storeS (escapeFts5 query ++ "*") (limit * 3) = [] →
      correct_street storeS dictS query limit minSim = Except.ok res →
      ∀ r ∈ res, minSim ≤ r.similarity ∧
        ∃ row ∈ dictS,
          r.similarity = bestStreetSimilarity (strLower query) row.normalized_name) ∧
    (∀ (storeC : String → Nat → List CityRow) (dictC : List CityRow)
       (query : String) (limit : Nat) (minSim : ℚ) (res : List CityCand),
      storeC (escapeFts5 query ++ "*") (limit * 3) = [] →
      correct_city storeC dictC query limit minSim = Except.ok res →
      ∀ r ∈ res, minSim ≤ r.similarity ∧
        ∃ row ∈ dictC,
          r.similarity = simQ (strLower query).data row.normalized_name.data) := by
  constructor
  · intro storeS dictS query limit minSim res hfts hok r hr
    by_cases hlen : query.length < 2
    · simp only [correct_street, if_pos hlen, Except.ok.injEq] at hok
      rw [← hok] at hr
      cases hr
    · simp only [correct_street, if_neg hlen, runDictFts] at hok
      by_cases hterm : fts5PrefixTermValid (escapeFts5 query) = true
      · rw [if_pos hterm, hfts] at hok
        simp only [List.isEmpty_nil, if_true, Except.ok.injEq] at hok
        rw [← hok] at hr
        have h1 : r ∈ (streetScan (strLower query) minSim limit dictS 0).mergeSort
            (fun a b => decide (blendedScore b.similarity b.usage_count ≤
              blendedScore a.similarity a.usage_count)) :=
          List.mem_of_mem_take hr
        have h2 : r ∈ streetScan (strLower query) minSim limit dictS 0 :=
          (List.mergeSort_perm _ _).mem_iff.mp h1
        obtain ⟨row, hm, he, hs⟩ := streetScan_mem dictS 0 r h2
        refine ⟨?_, row, hm, ?_⟩
        · rw [he]; exact hs
        · rw [he]; rfl
      · rw [if_neg hterm] at hok
        cases hok
  · intro storeC dictC query limit minSim res hfts hok r hr
    by_cases hlen : query.length < 2
    · simp only [correct_city, if_pos hlen, Except.ok.injEq] at hok
      rw [← hok] at hr
      cases hr
    · simp only [correct_city, if_neg hlen, runDictFts] at hok
      by_cases hterm : fts5PrefixTermValid (escapeFts5 query) = true
      · rw [if_pos hterm, hfts] at hok
        simp only [List.isEmpty_nil, if_true, Except.ok.injEq] at hok
        rw [← hok] at hr
        have h1 : r ∈ (cityScan (strLower query) minSim (dictC.take 30)).mergeSort
            (fun a b => decide (blendedScore b.similarity b.usage_count ≤
              blendedScore a.similarity a.usage_count)) :=
          List.mem_of_mem_take hr
        have h2 : r ∈ cityScan (strLower query) minSim (dictC.take 30) :=
          (List.mergeSort_perm _ _).mem_iff.mp h1
        obtain ⟨row, hm, he, hs⟩ := cityScan_mem h2
        exact ⟨hs, row, List.mem_of_mem_take hm, he⟩
      · rw [if_neg hterm] at hok
        cases hok

theorem C2_fallback_similarity_at_least_min_witness :
    (0 : ℚ) ≤ (⟨"Ab", "ab", 1, 3, 0⟩ : StreetCand).similarity ∧
    ∃ row ∈ [(⟨"Ab", "ab", 3⟩ : StreetRow)],
      (⟨"Ab", "ab", 1, 3, 0⟩ : StreetCand).similarity =
        bestStreetSimilarity (strLower "ab") row.normalized_name := by
  have hok : correct_street (fun _ _ => []) [⟨"Ab", "ab", 3⟩] "ab" 1 0 =
      Except.ok [⟨"Ab", "ab", 1, 3, 0⟩] := by
    have hlow : strLower "ab" = "ab" := rfl
    have hsim : bestStreetSimilarity "ab" "ab" = 1 := by
      have hlev : levenshtein "ab".data "ab".data = 0 := by decide
      have hparts : ¬ 1 < (splitWords "ab".data).length := by decide
      simp [bestStreetSimilarity, hparts, simQ, hlev]
    have hterm : fts5PrefixTermValid (escapeFts5 "ab") = true := by decide
    simp only [correct_street, runDictFts, hterm, if_true,
      if_neg (by decide : ¬ ("ab" : String).length < 2)]
    simp only [List.isEmpty_nil, if_true, hlow]
    simp only [streetScan, hsim]
    norm_num [mkStreetCand]
  exact C2_fallback_similarity_at_least_min.1 (fun _ _ => []) [⟨"Ab", "ab", 3⟩]
    "ab" 1 0 [⟨"Ab", "ab", 1, 3, 0⟩] rfl hok ⟨"Ab", "ab", 1, 3, 0⟩
    (List.mem_singleton.mpr rfl)

/-! ### Claim C7 -/

/-- C7: the candidate lists returned by `correct_street` and
`correct_city` are sorted in descending order of the blended score
`0.7 * similarity + 0.3 * min(usage_count / 1000, 1.0)`; consequently,
between two returned candidates with equal similarity, the earlier one has
the larger capped usage term. -/
theorem C7_blended_sort_descending :
    (∀ (storeS : String → Nat → List StreetRow) (dictS : List StreetRow)
       (query : String) (limit : Nat) (minSim : ℚ) (res : List StreetCand),
      correct_street storeS dictS query limit minSim = Except.ok res →
      res.Pairwise (fun a b => blendedScore b.similarity b.usage_count ≤
        blendedScore a.similarity a.usage_count) ∧
      ∀ (i j : Nat) (hi : i < res.length) (hj : j < res.length), i < j →
        (res.get ⟨i, hi⟩).similarity = (res.get ⟨j, hj⟩).similarity →
        min (((res.get ⟨j, hj⟩).usage_count : ℚ) / 1000) 1 ≤
          min (((res.get ⟨i, hi⟩).usage_count : ℚ) / 1000) 1) ∧
    (∀ (storeC : String → Nat → List CityRow) (dictC : List CityRow)
       (query : String) (limit : Nat) (minSim : ℚ) (res : List CityCand),
      correct_city storeC dictC query limit minSim = Except.ok res →
      res.Pairwise (fun a b => blendedScore b.similarity b.usage_count ≤
        blendedScore a.similarity a.usage_count) ∧
      ∀ (i j : Nat) (hi : i < res.length) (hj : j < res.length), i < j →
        (res.get ⟨i, hi⟩).similarity = (res.get ⟨j, hj⟩).similarity →
        min (((res.get ⟨j, hj⟩).usage_count : ℚ) / 1000) 1 ≤
          min (((res.get ⟨i, hi⟩).usage_count : ℚ) / 1000) 1) := by
  constructor
  · intro storeS dictS query limit minSim res hok
    obtain ⟨l, hshape⟩ := correct_street_ok_shape hok
    have hpw : res.Pairwise (fun a b : StreetCand =>
        blendedScore b.similarity b.usage_count ≤
        blendedScore a.similarity a.usage_count) := by
      rw [hshape]
      exact pairwise_take
        (pairwise_mergeSort_descBy (fun c => blendedScore c.similarity c.usage_count) l)
        limit
    refine ⟨hpw, ?_⟩
    intro i j hi hj hij hsim
    have hkey := List.pairwise_iff_getElem.mp hpw i j hi hj hij
    simp only [List.get_eq_getElem]
    simp only [blendedScore] at hkey
    rw [List.get_eq_getElem, List.get_eq_getElem] at hsim
    rw [hsim] at hkey
    linarith
  · intro storeC dictC query limit minSim res hok
    obtain ⟨l, hshape⟩ := correct_city_ok_shape hok
    have hpw : res.Pairwise (fun a b : CityCand =>
        blendedScore b.similarity b.usage_count ≤
        blendedScore a.similarity a.usage_count) := by
      rw [hshape]
      exact pairwise_take
        (pairwise_mergeSort_descBy (fun c => blendedScore c.similarity c.usage_count) l)
        limit
    refine ⟨hpw, ?_⟩
    intro i j hi hj hij hsim
    have hkey := List.pairwise_iff_getElem.mp hpw i j hi hj hij
    simp only [List.get_eq_getElem]
    simp only [blendedScore] at hkey
    rw [List.get_eq_getElem, List.get_eq_getElem] at hsim
    rw [hsim] at hkey
    linarith

theorem C7_blended_sort_descending_witness :
    ([(⟨"Ab", "ab", 1, 3, 0⟩ : StreetCand)] : List StreetCand).Pairwise
      (fun a b => blendedScore b.similarity b.usage_count ≤
        blendedScore a.similarity a.usage_count) := by
  have hok : correct_street (fun _ _ => []) [⟨"Ab", "ab", 3⟩] "ab" 1 0 =
      Except.ok [⟨"Ab", "ab", 1, 3, 0⟩] := by
    have hlow : strLower "ab" = "ab" := rfl
    have hsim : bestStreetSimilarity "ab" "ab" = 1 := by
      have hlev : levenshtein "ab".data "ab".data = 0 := by decide
      have hparts : ¬ 1 < (splitWords "ab".data).length := by decide
      simp [bestStreetSimilarity, hparts, simQ, hlev]
    have hterm : fts5PrefixTermValid (escapeFts5 "ab") = true := by decide
    simp only [correct_street, runDictFts, hterm, if_true,
      if_neg (by decide : ¬ ("ab" : String).length < 2)]
    simp only [List.isEmpty_nil, if_true, hlow]
    simp only [streetScan, hsim]
    norm_num [mkStreetCand]
  exact (C7_blended_sort_descending.1 (fun _ _ => []) [⟨"Ab", "ab", 3⟩]
    "ab" 1 0 [⟨"Ab", "ab", 1, 3, 0⟩] hok).1

/-! ### Claim C9 -/

/-- C9: when the parsed components have both city and road empty, the
correction orchestrator still runs a direct search of the full raw query
against both the street and the city dictionary, merges the hits into the
suggestion pool (streets first, then cities), and returns that pool sorted
and truncated — not a failure and not an unconditionally empty result. -/
theorem C9_direct_search_when_unparsed
    (storeS : String → Nat → List StreetRow) (storeC : String → Nat → List CityRow)
    (dictS : List StreetRow) (dictC : List CityRow)
    (original_address : String) (max_suggestions : Nat) (min_similarity : ℚ)
    (components : Components) (sc : List StreetCand) (cc : List CityCand)
    (hcity : pyStrip components.city = "")
    (hroad : pyStrip components.road = "")
    (hs : correct_street storeS dictS original_address max_suggestions min_similarity =
      Except.ok sc)
    (hc : correct_city storeC dictC original_address max_suggestions min_similarity =
      Except.ok cc) :
    ∃ r : CorrectResult,
      correct_address storeS storeC dictS dictC original_address
        max_suggestions min_similarity components = Except.ok r ∧
      r.suggestions = ((sc.map streetSugg ++ cc.map citySugg).mergeSort
        (fun a b => decide (b.similarity_score ≤ a.similarity_score))).take
          max_suggestions := by
  simp only [correct_address, hcity, hroad, ne_eq, not_true_eq_false, if_false,
    and_self, if_true, hs, hc, List.nil_append]
  rcases hsort : (sc.map streetSugg ++ cc.map citySugg).mergeSort
      (fun a b => decide (b.similarity_score ≤ a.similarity_score)) with _ | ⟨b, rest⟩
  · exact ⟨_, rfl, by simp⟩
  · exact ⟨_, rfl, rfl⟩

theorem C9_direct_search_when_unparsed_witness :
    ∃ r : CorrectResult,
      correct_address (fun _ _ => []) (fun _ _ => []) [⟨"Ab", "ab", 3⟩] []
        "ab" 1 0 ⟨"", "", ""⟩ = Except.ok r ∧
      r.suggestions = ((([(⟨"Ab", "ab", 1, 3, 0⟩ : StreetCand)].map streetSugg) ++
        (([] : List CityCand).map citySugg)).mergeSort
          (fun a b => decide (b.similarity_score ≤ a.similarity_score))).take 1 := by
  have hok : correct_street (fun _ _ => []) [⟨"Ab", "ab", 3⟩] "ab" 1 0 =
      Except.ok [⟨"Ab", "ab", 1, 3, 0⟩] := by
    have hlow : strLower "ab" = "ab" := rfl
    have hsim : bestStreetSimilarity "ab" "ab" = 1 := by
      have hlev : levenshtein "ab".data "ab".data = 0 := by decide
      have hparts : ¬ 1 < (splitWords "ab".data).length := by decide
      simp [bestStreetSimilarity, hparts, simQ, hlev]
    have hterm : fts5PrefixTermValid (escapeFts5 "ab") = true := by decide
    simp only [correct_street, runDictFts, hterm, if_true,
      if_neg (by decide : ¬ ("ab" : String).length < 2)]
    simp only [List.isEmpty_nil, if_true, hlow]
    simp only [streetScan, hsim]
    norm_num [mkStreetCand]
  have hokc : correct_city (fun _ _ => []) [] "ab" 1 0 = Except.ok [] := by
    have hterm : fts5PrefixTermValid (escapeFts5 "ab") = true := by decide
    simp [correct_city, runDictFts, hterm, cityScan,
      if_neg (by decide : ¬ ("ab" : String).length < 2)]
  exact C9_direct_search_when_unparsed (fun _ _ => []) (fun _ _ => [])
    [⟨"Ab", "ab", 3⟩] [] "ab" 1 0 ⟨"", "", ""⟩ [⟨"Ab", "ab", 1, 3, 0⟩] []
    rfl rfl hok hokc

/-! ### Claim C10 -/

/-- C10: in `correct_full_address`, (a) a city or street component whose
best dictionary correction has similarity exactly 1 is emitted unchanged —
the user's text, not the dictionary's display form, appears in that
component's slot of the output — whatever the other components are;
(b) `was_corrected` is true if and only if at least one component was
replaced by a correction of similarity strictly below 1; (c) with all
three components empty the original address is returned verbatim with
`was_corrected = false`. -/
theorem C10_full_address_correction_behaviour :
    (∀ (storeS : String → Nat → List StreetRow) (storeC : String → Nat → List CityRow)
       (dictS : List StreetRow) (dictC : List CityRow) (address : String)
       (components : Components) (c : CityCand) (crest : List CityCand)
       (sc : List StreetCand),
      pyStrip components.city ≠ "" →
      correct_city storeC dictC (pyStrip components.city) 1 (7 / 10) =
        Except.ok (c :: crest) →
      (1 : ℚ) ≤ c.similarity →
      correct_street storeS dictS (pyStrip components.road) 1 (7 / 10) =
        Except.ok sc →
      ∃ (streetParts : List String) (flag : Bool),
        correct_full_address storeS storeC dictS dictC address components =
          Except.ok (String.intercalate ", " ([pyStrip components.city] ++
            streetParts ++ (if pyStrip components.house_number ≠ ""
              then [pyStrip components.house_number] else [])), flag)) ∧
    (∀ (storeS : String → Nat → List StreetRow) (storeC : String → Nat → List CityRow)
       (dictS : List StreetRow) (dictC : List CityRow) (address : String)
       (components : Components) (s : StreetCand) (srest : List StreetCand)
       (cc : List CityCand),
      pyStrip components.road ≠ "" →
      correct_street storeS dictS (pyStrip components.road) 1 (7 / 10) =
        Except.ok (s :: srest) →
      (1 : ℚ) ≤ s.similarity →
      correct_city storeC dictC (pyStrip components.city) 1 (7 / 10) =
        Except.ok cc →
      ∃ (cityParts : List String) (flag : Bool),
        correct_full_address storeS storeC dictS dictC address components =
          Except.ok (String.intercalate ", " (cityParts ++
            [pyStrip components.road] ++ (if pyStrip components.house_number ≠ ""
              then [pyStrip components.house_number] else [])), flag)) ∧
    (∀ (storeS : String → Nat → List StreetRow) (storeC : String → Nat → List CityRow)
       (dictS : List StreetRow) (dictC : List CityRow) (address : String)
       (components : Components) (cc : List CityCand) (sc : List StreetCand),
      correct_city storeC dictC (pyStrip components.city) 1 (7 / 10) = Except.ok cc →
      correct_street storeS dictS (pyStrip components.road) 1 (7 / 10) = Except.ok sc →
      ∃ out : String × Bool,
        correct_full_address storeS storeC dictS dictC address components =
          Except.ok out ∧
        (out.2 = true ↔
          ((pyStrip components.city ≠ "" ∧ ∃ c rest, cc = c :: rest ∧ c.similarity < 1) ∨
           (pyStrip components.road ≠ "" ∧ ∃ s rest, sc = s :: rest ∧ s.similarity < 1)))) ∧
    (∀ (storeS : String → Nat → List StreetRow) (storeC : String → Nat → List CityRow)
       (dictS : List StreetRow) (dictC : List CityRow) (address : String)
       (components : Components),
      pyStrip components.city = "" → pyStrip components.road = "" →
      pyStrip components.house_number = "" →
      correct_full_address storeS storeC dictS dictC address components =
        Except.ok (address, false)) := by
  refine ⟨?_, ?_, ?_, ?_⟩
  · intro storeS storeC dictS dictC address components c crest sc hcity hcc hsim hsc
    have hlt : ¬ c.similarity < 1 := not_lt.mpr hsim
    by_cases hroad : pyStrip components.road = ""
    · refine ⟨[], false, ?_⟩
      simp only [correct_full_address, if_pos hcity, hcc, if_neg hlt, hroad,
        ne_eq, not_true_eq_false, if_false, List.nil_append, List.append_nil,
        List.singleton_append, List.cons_append]
      simp
    · rcases sc with _ | ⟨s, srest⟩
      · refine ⟨[pyStrip components.road], false, ?_⟩
        simp only [correct_full_address, if_pos hcity, hcc, if_neg hlt,
          if_pos hroad, hsc, List.nil_append, List.append_nil,
          List.singleton_append, List.cons_append]
        simp
      · by_cases hslt : s.similarity < 1
        · refine ⟨[s.street_name], true, ?_⟩
          simp only [correct_full_address, if_pos hcity, hcc, if_neg hlt,
            if_pos hroad, hsc, if_pos hslt, List.nil_append, List.append_nil,
            List.singleton_append, List.cons_append]
          simp
        · refine ⟨[pyStrip components.road], false, ?_⟩
          simp only [correct_full_address, if_pos hcity, hcc, if_neg hlt,
            if_pos hroad, hsc, if_neg hslt, List.nil_append, List.append_nil,
            List.singleton_append, List.cons_append]
          simp
  · intro storeS storeC dictS dictC address components s srest cc hroad hsc hsim hcc
    have hlt : ¬ s.similarity < 1 := not_lt.mpr hsim
    by_cases hcity : pyStrip components.city = ""
    · refine ⟨[], false, ?_⟩
      simp only [correct_full_address, hcity, ne_eq, not_true_eq_false, if_false,
        if_pos hroad, hsc, if_neg hlt, List.nil_append, List.append_nil,
        List.singleton_append, List.cons_append]
      simp
    · rcases cc with _ | ⟨c, crest⟩
      · refine ⟨[pyStrip components.city], false, ?_⟩
        simp only [correct_full_address, if_pos hcity, hcc, if_pos hroad, hsc,
          if_neg hlt, List.nil_append, List.append_nil, List.singleton_append,
          List.cons_append]
        simp
      · by_cases hclt : c.similarity < 1
        · refine ⟨[c.city_name], true, ?_⟩
          simp only [correct_full_address, if_pos hcity, hcc, if_pos hclt,
            if_pos hroad, hsc, if_neg hlt, List.nil_append, List.append_nil,
            List.singleton_append, List.cons_append]
          simp
        · refine ⟨[pyStrip components.city], false, ?_⟩
          simp only [correct_full_address, if_pos hcity, hcc, if_neg hclt,
            if_pos hroad, hsc, if_neg hlt, List.nil_append, List.append_nil,
            List.singleton_append, List.cons_append]
          simp
  · intro storeS storeC dictS dictC address components cc sc hcc hsc
    by_cases hcity : pyStrip components.city = ""
    · by_cases hroad : pyStrip components.road = ""
      · simp only [correct_full_address, hcity, hroad, ne_eq, not_true_eq_false,
          if_false]
        refine ⟨_, rfl, ?_⟩
        constructor
        · intro h; simp at h
        · rintro (⟨hc, _⟩ | ⟨hr, _⟩)
          · simp [hcity] at hc
          · simp [hroad] at hr
      · rcases sc with _ | ⟨s, srest⟩
        · simp only [correct_full_address, hcity, ne_eq, not_true_eq_false,
            if_false, if_pos hroad, hsc]
          refine ⟨_, rfl, ?_⟩
          constructor
          · intro h; simp at h
          · rintro (⟨hc, _⟩ | ⟨_, s', rest', heq, _⟩)
            · simp [hcity] at hc
            · cases heq
        · by_cases hslt : s.similarity < 1
          · simp only [correct_full_address, hcity, ne_eq, not_true_eq_false,
              if_false, if_pos hroad, hsc, if_pos hslt]
            refine ⟨_, rfl, ?_⟩
            constructor
            · intro _; exact Or.inr ⟨hroad, s, srest, rfl, hslt⟩
            · intro _; rfl
          · simp only [correct_full_address, hcity, ne_eq, not_true_eq_false,
              if_false, if_pos hroad, hsc, if_neg hslt]
            refine ⟨_, rfl, ?_⟩
            constructor
            · intro h; simp at h
            · rintro (⟨hc, _⟩ | ⟨_, s', rest', heq, hlt'⟩)
              · simp [hcity] at hc
              · cases heq; exact absurd hlt' hslt
    · rcases cc with _ | ⟨c, crest⟩
      · by_cases hroad : pyStrip components.road = ""
        · simp only [correct_full_address, if_pos hcity, hcc, hroad, ne_eq,
            not_true_eq_false, if_false]
          refine ⟨_, rfl, ?_⟩
          constructor
          · intro h; simp at h
          · rintro (⟨_, c', rest', heq, _⟩ | ⟨hr, _⟩)
            · cases heq
            · simp [hroad] at hr
        · rcases sc with _ | ⟨s, srest⟩
          · simp only [correct_full_address, if_pos hcity, hcc, if_pos hroad, hsc]
            refine ⟨_, rfl, ?_⟩
            constructor
            · intro h; simp at h
            · rintro (⟨_, c', rest', heq, _⟩ | ⟨_, s', rest', heq, _⟩)
              · cases heq
              · cases heq
          · by_cases hslt : s.similarity < 1
            · simp only [correct_full_address, if_pos hcity, hcc, if_pos hroad,
                hsc, if_pos hslt]
              refine ⟨_, rfl, ?_⟩
              constructor
              · intro _; exact Or.inr ⟨hroad, s, srest, rfl, hslt⟩
              · intro _; rfl
            · simp only [correct_full_address, if_pos hcity, hcc, if_pos hroad,
                hsc, if_neg hslt]
              refine ⟨_, rfl, ?_⟩
              constructor
              · intro h; simp at h
              · rintro (⟨_, c', rest', heq, _⟩ | ⟨_, s', rest', heq, hlt'⟩)
                · cases heq
                · cases heq; exact absurd hlt' hslt
      · by_cases hclt : c.similarity < 1
        · by_cases hroad : pyStrip components.road = ""
          · simp only [correct_full_address, if_pos hcity, hcc, if_pos hclt,
              hroad, ne_eq, not_true_eq_false, if_false]
            refine ⟨_, rfl, ?_⟩
            constructor
            · intro _; exact Or.inl ⟨hcity, c, crest, rfl, hclt⟩
            · intro _; rfl
          · rcases sc with _ | ⟨s, srest⟩
            · simp only [correct_full_address, if_pos hcity, hcc, if_pos hclt,
                if_pos hroad, hsc]
              refine ⟨_, rfl, ?_⟩
              constructor
              · intro _; exact Or.inl ⟨hcity, c, crest, rfl, hclt⟩
              · intro _; rfl
            · by_cases hslt : s.similarity < 1
              · simp only [correct_full_address, if_pos hcity, hcc, if_pos hclt,
                  if_pos hroad, hsc, if_pos hslt]
                refine ⟨_, rfl, ?_⟩
                constructor
                · intro _; exact Or.inl ⟨hcity, c, crest, rfl, hclt⟩
                · intro _; rfl
              · simp only [correct_full_address, if_pos hcity, hcc, if_pos hclt,
                  if_pos hroad, hsc, if_neg hslt]
                refine ⟨_, rfl, ?_⟩
                constructor
                · intro _; exact Or.inl ⟨hcity, c, crest, rfl, hclt⟩
                · intro _; rfl
        · by_cases hroad : pyStrip components.road = ""
          · simp only [correct_full_address, if_pos hcity, hcc, if_neg hclt,
              hroad, ne_eq, not_true_eq_false, if_false]
            refine ⟨_, rfl, ?_⟩
            constructor
            · intro h; simp at h
            · rintro (⟨_, c', rest', heq, hlt'⟩ | ⟨hr, _⟩)
              · cases heq; exact absurd hlt' hclt
              · simp [hroad] at hr
          · rcases sc with _ | ⟨s, srest⟩
            · simp only [correct_full_address, if_pos hcity, hcc, if_neg hclt,
                if_pos hroad, hsc]
              refine ⟨_, rfl, ?_⟩
              constructor
              · intro h; simp at h
              · rintro (⟨_, c', rest', heq, hlt'⟩ | ⟨_, s', rest', heq, _⟩)
                · cases heq; exact absurd hlt' hclt
                · cases heq
            · by_cases hslt : s.similarity < 1
              · simp only [correct_full_address, if_pos hcity, hcc, if_neg hclt,
                  if_pos hroad, hsc, if_pos hslt]
                refine ⟨_, rfl, ?_⟩
                constructor
                · intro _; exact Or.inr ⟨hroad, s, srest, rfl, hslt⟩
                · intro _; rfl
              · simp only [correct_full_address, if_pos hcity, hcc, if_neg hclt,
                  if_pos hroad, hsc, if_neg hslt]
                refine ⟨_, rfl, ?_⟩
                constructor
                · intro h; simp at h
                · rintro (⟨_, c', rest', heq, hlt'⟩ | ⟨_, s', rest', heq, hlt'⟩)
                  · cases heq; exact absurd hlt' hclt
                  · cases heq; exact absurd hlt' hslt
  · intro storeS storeC dictS dictC address components hcity hroad hhouse
    simp only [correct_full_address, hcity, hroad, hhouse, ne_eq,
      not_true_eq_false, if_false, List.append_nil, List.nil_append,
      List.isEmpty_nil, if_true]
    rfl

theorem C10_full_address_correction_behaviour_witness :
    (∃ (streetParts : List String) (flag : Bool),
      correct_full_address (fun _ _ => []) (fun _ _ => []) [⟨"Ab", "ab", 3⟩]
        [⟨"Cd", "cd", 5⟩] "x" ⟨"cd", "ab", ""⟩ =
        Except.ok (String.intercalate ", " ("cd" :: streetParts), flag)) ∧
    (∃ (cityParts : List String) (flag : Bool),
      correct_full_address (fun _ _ => []) (fun _ _ => []) [⟨"Ab", "ab", 3⟩]
        [⟨"Cd", "cd", 5⟩] "x" ⟨"cd", "ab", ""⟩ =
        Except.ok (String.intercalate ", " (cityParts ++ ["ab"]), flag)) ∧
    (∃ out : String × Bool,
      correct_full_address (fun _ _ => []) (fun _ _ => []) [⟨"Ab", "ab", 3⟩]
        [⟨"Cd", "cd", 5⟩] "x" ⟨"", "ab", ""⟩ = Except.ok out ∧
      (out.2 = true ↔
        ((pyStrip ("" : String) ≠ "" ∧ ∃ c rest,
           ([] : List CityCand) = c :: rest ∧ c.similarity < 1) ∨
         (pyStrip ("ab" : String) ≠ "" ∧ ∃ s rest,
           [(⟨"Ab", "ab", 1, 3, 0⟩ : StreetCand)] = s :: rest ∧ s.similarity < 1)))) ∧
    correct_full_address (fun _ _ => []) (fun _ _ => []) [⟨"Ab", "ab", 3⟩]
      [⟨"Cd", "cd", 5⟩] "x" ⟨"", "", ""⟩ = Except.ok ("x", false) := by
  have hoks : correct_street (fun _ _ => []) [⟨"Ab", "ab", 3⟩] "ab" 1 (7 / 10) =
      Except.ok [⟨"Ab", "ab", 1, 3, 0⟩] := by
    have hlow : strLower "ab" = "ab" := rfl
    have hsim : bestStreetSimilarity "ab" "ab" = 1 := by
      have hlev : levenshtein "ab".data "ab".data = 0 := by decide
      have hparts : ¬ 1 < (splitWords "ab".data).length := by decide
      simp [bestStreetSimilarity, hparts, simQ, hlev]
    have hterm : fts5PrefixTermValid (escapeFts5 "ab") = true := by decide
    simp only [correct_street, runDictFts, hterm, if_true,
      if_neg (by decide : ¬ ("ab" : String).length < 2)]
    simp only [List.isEmpty_nil, if_true, hlow]
    simp only [streetScan, hsim]
    norm_num [mkStreetCand]
  have hokc : correct_city (fun _ _ => []) [⟨"Cd", "cd", 5⟩] "cd" 1 (7 / 10) =
      Except.ok [⟨"Cd", "cd", 1, 5, 0⟩] := by
    have hlow : strLower "cd" = "cd" := rfl
    have hsim : simQ "cd".data "cd".data = 1 := by
      have hlev : levenshtein "cd".data "cd".data = 0 := by decide
      simp [simQ, hlev]
    have hterm : fts5PrefixTermValid (escapeFts5 "cd") = true := by decide
    simp only [correct_city, runDictFts, hterm, if_true,
      if_neg (by decide : ¬ ("cd" : String).length < 2)]
    simp only [List.isEmpty_nil, if_true, hlow, List.take]
    simp only [cityScan, List.filterMap, hsim]
    norm_num
  have hstrip : pyStrip ("cd" : String) = "cd" := rfl
  have hstripAb : pyStrip ("ab" : String) = "ab" := rfl
  have hstripE : pyStrip ("" : String) = "" := rfl
  refine ⟨?_, ?_, ?_, ?_⟩
  · obtain ⟨sp, flag, h⟩ := C10_full_address_correction_behaviour.1 (fun _ _ => [])
      (fun _ _ => []) [⟨"Ab", "ab", 3⟩] [⟨"Cd", "cd", 5⟩] "x"
      ⟨"cd", "ab", ""⟩ ⟨"Cd", "cd", 1, 5, 0⟩ [] [⟨"Ab", "ab", 1, 3, 0⟩]
      (by rw [show pyStrip (Components.mk "cd" "ab" "").city = "cd" from rfl]; decide)
      hokc (by norm_num) hoks
    refine ⟨sp, flag, ?_⟩
    simp only [hstrip, hstripE, ne_eq, not_true_eq_false, if_false,
      List.append_nil, List.singleton_append] at h
    exact h
  · obtain ⟨cp, flag, h⟩ := C10_full_address_correction_behaviour.2.1 (fun _ _ => [])
      (fun _ _ => []) [⟨"Ab", "ab", 3⟩] [⟨"Cd", "cd", 5⟩] "x"
      ⟨"cd", "ab", ""⟩ ⟨"Ab", "ab", 1, 3, 0⟩ [] [⟨"Cd", "cd", 1, 5, 0⟩]
      (by rw [show pyStrip (Components.mk "cd" "ab" "").road = "ab" from rfl]; decide)
      hoks (by norm_num) hokc
    refine ⟨cp, flag, ?_⟩
    simp only [hstrip, hstripAb, hstripE, ne_eq, not_true_eq_false, if_false,
      List.append_nil, List.singleton_append] at h
    exact h
  · obtain ⟨out, hout, hiff⟩ := C10_full_address_correction_behaviour.2.2.1
      (fun _ _ => []) (fun _ _ => []) [⟨"Ab", "ab", 3⟩] [⟨"Cd", "cd", 5⟩] "x"
      ⟨"", "ab", ""⟩ [] [⟨"Ab", "ab", 1, 3, 0⟩]
      (by rw [hstripE]; simp [correct_city]) (by rw [hstripAb]; exact hoks)
    exact ⟨out, hout, by rw [hstripE, hstripAb] at hiff; exact hiff⟩
  · exact C10_full_address_correction_behaviour.2.2.2 (fun _ _ => [])
      (fun _ _ => []) [⟨"Ab", "ab", 3⟩] [⟨"Cd", "cd", 5⟩] "x"
      ⟨"", "", ""⟩ hstripE hstripE hstripE

/-! ### Claim C1 -/

/-- C1: for a non-empty FTS candidate set, every candidate scored by
`AdvancedSearchEngine.search` gets the final score
`0.25 * similarity + 0.60 * component_score + 0.15 * relevance`, and the
returned list is sorted descending by this score and truncated to `limit`
elements. -/
theorem C1_weighted_score_sorted_truncated
    (store : String → Nat → List BRow) (components : Components)
    (original_address : String) (limit : Nat)
    (hparts : searchQuery components original_address ≠ [])
    (hrows : store (String.intercalate " " (searchQuery components original_address))
      (limit * 2) ≠ []) :
    (search store components original_address limit).length ≤ limit ∧
    (search store components original_address limit).Pairwise
      (fun a b => b.score ≤ a.score) ∧
    ∀ x ∈ search store components original_address limit,
      ∃ row ∈ store (String.intercalate " " (searchQuery components original_address))
          (limit * 2),
        x = mkSearchResult (escapeFts5 (pyStrip components.city))
          (escapeFts5 (pyStrip components.road))
          (escapeFts5 (pyStrip components.house_number)) original_address
          (maxBm25Of (store (String.intercalate " "
            (searchQuery components original_address)) (limit * 2))) row ∧
        x.score = (1 / 4) * levScoreOf original_address row +
          (3 / 5) * componentScoreOf (escapeFts5 (pyStrip components.city))
            (escapeFts5 (pyStrip components.road))
            (escapeFts5 (pyStrip components.house_number)) row +
          (3 / 20) * normalizedBm25 (maxBm25Of (store (String.intercalate " "
            (searchQuery components original_address)) (limit * 2))) row := by
  have hsearch : search store components original_address limit =
      (((store (String.intercalate " " (searchQuery components original_address))
        (limit * 2)).map (mkSearchResult (escapeFts5 (pyStrip components.city))
          (escapeFts5 (pyStrip components.road))
          (escapeFts5 (pyStrip components.house_number)) original_address
          (maxBm25Of (store (String.intercalate " "
            (searchQuery components original_address)) (limit * 2))))).mergeSort
        (fun a b => decide (b.score ≤ a.score))).take limit := by
    simp only [search, if_neg hparts, if_neg hrows]
  refine ⟨?_, ?_, ?_⟩
  · rw [hsearch]; exact List.length_take_le _ _
  · rw [hsearch]
    exact pairwise_take (pairwise_mergeSort_descBy (fun r : SearchResult => r.score) _) limit
  · intro x hx
    rw [hsearch] at hx
    have h1 := List.mem_of_mem_take hx
    have h2 := (List.mergeSort_perm _ _).mem_iff.mp h1
    obtain ⟨row, hm, he⟩ := List.mem_map.mp h2
    refine ⟨row, hm, he.symm, ?_⟩
    rw [← he]
    rfl

theorem C1_weighted_score_sorted_truncated_witness :
    (search (fun _ _ => [⟨"", "", "", 0, 0, "bb", 0⟩]) ⟨"", "", "10"⟩ "aa" 1).length ≤ 1 ∧
    (search (fun _ _ => [⟨"", "", "", 0, 0, "bb", 0⟩]) ⟨"", "", "10"⟩ "aa" 1).Pairwise
      (fun a b => b.score ≤ a.score) ∧
    ∀ x ∈ search (fun _ _ => [⟨"", "", "", 0, 0, "bb", 0⟩]) ⟨"", "", "10"⟩ "aa" 1,
      ∃ row ∈ (fun (_ : String) (_ : Nat) => [(⟨"", "", "", 0, 0, "bb", 0⟩ : BRow)])
          (String.intercalate " " (searchQuery ⟨"", "", "10"⟩ "aa")) (1 * 2),
        x = mkSearchResult (escapeFts5 (pyStrip (Components.mk "" "" "10").city))
          (escapeFts5 (pyStrip (Components.mk "" "" "10").road))
          (escapeFts5 (pyStrip (Components.mk "" "" "10").house_number)) "aa"
          (maxBm25Of ((fun (_ : String) (_ : Nat) =>
            [(⟨"", "", "", 0, 0, "bb", 0⟩ : BRow)]) (String.intercalate " "
              (searchQuery ⟨"", "", "10"⟩ "aa")) (1 * 2))) row ∧
        x.score = (1 / 4) * levScoreOf "aa" row +
          (3 / 5) * componentScoreOf (escapeFts5 (pyStrip (Components.mk "" "" "10").city))
            (escapeFts5 (pyStrip (Components.mk "" "" "10").road))
            (escapeFts5 (pyStrip (Components.mk "" "" "10").house_number)) row +
          (3 / 20) * normalizedBm25 (maxBm25Of ((fun (_ : String) (_ : Nat) =>
            [(⟨"", "", "", 0, 0, "bb", 0⟩ : BRow)]) (String.intercalate " "
              (searchQuery ⟨"", "", "10"⟩ "aa")) (1 * 2))) row :=
  C1_weighted_score_sorted_truncated
    (fun _ _ => [⟨"", "", "", 0, 0, "bb", 0⟩]) ⟨"", "", "10"⟩ "aa" 1
    (by decide) (by decide)

/-! ### Claim C4 -/

/-- C4 falsified at a concrete input: with a single candidate row that has
no house number while the query requests one, the component score is
`-0.3` and the final score is `-0.18 < 0`, so the final score (and the
component signal) is not within `[0, 1]`. -/
theorem C4_counterexample_negative_final_score :
    ∃ x ∈ search (fun _ _ => [⟨"", "", "", 0, 0, "bb", 0⟩]) ⟨"", "", "10"⟩ "aa" 1,
      x.score < 0 := by
  have hq : searchQuery ⟨"", "", "10"⟩ "aa" = ["10*"] := by decide
  have hnormbb : normalize_address_for_comparison "bb" false = "bb" := by
    have ht : comparisonTokens "bb" = ["bb".data] := by decide
    have hkeep : List.filter (keepToken false) ["bb".data] = ["bb".data] := by decide
    rw [normalize_address_for_comparison, if_neg (by decide : ¬ ("bb" : String) = ""),
      ht, hkeep]
    simp only [List.mergeSort_singleton]
    rfl
  have hnormaa : normalize_address_for_comparison "aa" false = "aa" := by
    have ht : comparisonTokens "aa" = ["aa".data] := by decide
    have hkeep : List.filter (keepToken false) ["aa".data] = ["aa".data] := by decide
    rw [normalize_address_for_comparison, if_neg (by decide : ¬ ("aa" : String) = ""),
      ht, hkeep]
    simp only [List.mergeSort_singleton]
    rfl
  have hlev : levScoreOf "aa" ⟨"", "", "", 0, 0, "bb", 0⟩ = 0 := by
    have hd : levenshtein "bb".data "aa".data = 2 := by decide
    simp only [levScoreOf, hnormbb, hnormaa, hd]
    norm_num
  have hcomp : componentScoreOf "" "" "10" ⟨"", "", "", 0, 0, "bb", 0⟩ = -(3 / 10) := by
    have h10 : ¬ ("10" : String) = "" := by decide
    norm_num [componentScoreOf, houseMatchQ, h10]
  have hbm : normalizedBm25 (maxBm25Of [⟨"", "", "", 0, 0, "bb", 0⟩])
      ⟨"", "", "", 0, 0, "bb", 0⟩ = 0 := by
    simp only [normalizedBm25, maxBm25Of]
    norm_num
  have hfinal : finalScoreOf "" "" "10" "aa"
      (maxBm25Of [⟨"", "", "", 0, 0, "bb", 0⟩]) ⟨"", "", "", 0, 0, "bb", 0⟩ =
      -(9 / 50) := by
    rw [finalScoreOf, hlev, hcomp, hbm]
    norm_num
  have hsearch : search (fun _ _ => [⟨"", "", "", 0, 0, "bb", 0⟩]) ⟨"", "", "10"⟩ "aa" 1 =
      [mkSearchResult "" "" "10" "aa" (maxBm25Of [⟨"", "", "", 0, 0, "bb", 0⟩])
        ⟨"", "", "", 0, 0, "bb", 0⟩] := by
    simp only [search, hq]
    rw [if_neg (by decide : ¬ (["10*"] : List String) = [])]
    have hesc1 : escapeFts5 (pyStrip ("" : String)) = "" := rfl
    have hesc2 : escapeFts5 (pyStrip ("10" : String)) = "10" := rfl
    rw [if_neg (by decide : ¬ ([(⟨"", "", "", 0, 0, "bb", 0⟩ : BRow)]) = [])]
    simp only [List.map, List.mergeSort_singleton, List.take, hesc1, hesc2]
  rw [hsearch]
  refine ⟨_, List.mem_singleton.mpr rfl, ?_⟩
  have : (mkSearchResult "" "" "10" "aa" (maxBm25Of [⟨"", "", "", 0, 0, "bb", 0⟩])
      ⟨"", "", "", 0, 0, "bb", 0⟩).score =
      finalScoreOf "" "" "10" "aa" (maxBm25Of [⟨"", "", "", 0, 0, "bb", 0⟩])
        ⟨"", "", "", 0, 0, "bb", 0⟩ := rfl
  rw [this, hfinal]
  norm_num

/-! ### Claim C4, amended -/

theorem one_sub_div_mem_unit (d m : Nat) (hd : d ≤ m) (hm : 1 ≤ m) :
    0 ≤ (if 0 < m then 1 - (d : ℚ) / (m : ℚ) else 0) ∧
    (if 0 < m then 1 - (d : ℚ) / (m : ℚ) else 0) ≤ 1 := by
  rw [if_pos (by omega : 0 < m)]
  have hmq : (0 : ℚ) < (m : ℚ) := by exact_mod_cast hm
  have hdq : (d : ℚ) ≤ (m : ℚ) := by exact_mod_cast hd
  constructor
  · have := div_le_one_of_le₀ hdq hmq.le
    linarith
  · have : (0 : ℚ) ≤ (d : ℚ) / (m : ℚ) := div_nonneg (by positivity) hmq.le
    linarith

theorem levScoreOf_mem_unit (original_address : String) (row : BRow) :
    0 ≤ levScoreOf original_address row ∧ levScoreOf original_address row ≤ 1 := by
  exact one_sub_div_mem_unit
    (levenshtein (normalize_address_for_comparison row.full_address false).data
      (normalize_address_for_comparison original_address false).data)
    (max (normalize_address_for_comparison row.full_address false).data.length
      (max (normalize_address_for_comparison original_address false).data.length 1))
    (le_trans (levenshtein_le_max _ _) (by omega)) (by omega)

theorem normalizedBm25_mem_unit (maxBm : ℚ) (row : BRow) :
    0 ≤ normalizedBm25 maxBm row ∧ normalizedBm25 maxBm row ≤ 1 := by
  by_cases h : 0 < maxBm
  · simp only [normalizedBm25, if_pos h]
    constructor
    · exact le_min (div_nonneg (abs_nonneg _) h.le) zero_le_one
    · exact min_le_right _ _
  · simp only [normalizedBm25, if_neg h]
    norm_num

theorem cityMatchQ_le_one (city : String) (row : BRow) : cityMatchQ city row ≤ 1 := by
  unfold cityMatchQ
  split_ifs <;> norm_num

theorem streetMatchQ_le_one (street : String) (row : BRow) :
    streetMatchQ street row ≤ 1 := by
  simp only [streetMatchQ]
  split_ifs <;> norm_num

theorem houseMatchQ_le_one (house : String) (row : BRow) :
    houseMatchQ house row ≤ 1 := by
  unfold houseMatchQ
  split_ifs <;> norm_num

theorem componentScoreOf_le_one (city street house : String) (row : BRow) :
    componentScoreOf city street house row ≤ 1 := by
  have hc := cityMatchQ_le_one city row
  have hs := streetMatchQ_le_one street row
  have hh := houseMatchQ_le_one house row
  unfold componentScoreOf
  rcases eq_or_ne city "" with hcity | hcity <;>
    rcases eq_or_ne street "" with hstreet | hstreet <;>
      rcases eq_or_ne house "" with hhouse | hhouse <;>
        simp only [hcity, hstreet, hhouse, ne_eq, not_true_eq_false, if_false,
          not_false_eq_true, if_true]
  all_goals
    split_ifs with h
    · rw [div_le_one (by exact_mod_cast h)]
      push_cast
      linarith
    · norm_num

/-- C4, amended as the counterexample forces: the similarity and relevance
signals of the ranking engine each lie in `[0, 1]`, no individual signal
exceeds 1 before weighting (`component_score ≤ 1`), and the final score
never exceeds 1 — but the lower bound 0 fails for `component_score` and
`final_score` (they can reach `-0.3` and `-0.18` when a requested house
number is missing on the candidate). -/
theorem C4_amended_signal_bounds (city street house original_address : String)
    (maxBm : ℚ) (row : BRow) :
    0 ≤ levScoreOf original_address row ∧ levScoreOf original_address row ≤ 1 ∧
    0 ≤ normalizedBm25 maxBm row ∧ normalizedBm25 maxBm row ≤ 1 ∧
    componentScoreOf city street house row ≤ 1 ∧
    finalScoreOf city street house original_address maxBm row ≤ 1 := by
  obtain ⟨hl0, hl1⟩ := levScoreOf_mem_unit original_address row
  obtain ⟨hb0, hb1⟩ := normalizedBm25_mem_unit maxBm row
  have hcle := componentScoreOf_le_one city street house row
  refine ⟨hl0, hl1, hb0, hb1, hcle, ?_⟩
  unfold finalScoreOf
  linarith

/-! ### Order lemmas for the token comparison `tokLe` -/

theorem tokLe_trans : ∀ a b c : List Char,
    tokLe a b = true → tokLe b c = true → tokLe a c = true
  | [], _, _, _, _ => rfl
  | x :: xs, [], _, h, _ => by simp [tokLe] at h
  | x :: xs, y :: ys, [], _, h => by simp [tokLe] at h
  | x :: xs, y :: ys, z :: zs, h1, h2 => by
    simp only [tokLe] at h1 h2 ⊢
    by_cases hxy : x = y
    · subst hxy
      rw [if_pos rfl] at h1
      by_cases hyz : x = z
      · subst hyz
        rw [if_pos rfl] at h2 ⊢
        exact tokLe_trans _ _ _ h1 h2
      · rw [if_neg hyz] at h2 ⊢
        exact h2
    · rw [if_neg hxy] at h1
      have hx : x < y := of_decide_eq_true h1
      by_cases hyz : y = z
      · subst hyz
        rw [if_neg hxy]
        exact h1
      · rw [if_neg hyz] at h2
        have hy : y < z := of_decide_eq_true h2
        have hxz : x < z := lt_trans hx hy
        rw [if_neg (ne_of_lt hxz)]
        exact decide_eq_true hxz

theorem tokLe_total : ∀ a b : List Char, (tokLe a b || tokLe b a) = true
  | [], _ => by simp [tokLe]
  | _ :: _, [] => by simp [tokLe]
  | x :: xs, y :: ys => by
    simp only [tokLe]
    by_cases hxy : x = y
    · subst hxy
      rw [if_pos rfl, if_pos rfl]
      exact tokLe_total xs ys
    · rw [if_neg hxy, if_neg (Ne.symm hxy)]
      rcases lt_or_gt_of_ne (show x ≠ y from hxy) with h | h
      · simp [h]
      · simp [h]

theorem tokLe_antisymm : ∀ a b : List Char,
    tokLe a b = true → tokLe b a = true → a = b
  | [], [], _, _ => rfl
  | [], _ :: _, _, h => by simp [tokLe] at h
  | _ :: _, [], h, _ => by simp [tokLe] at h
  | x :: xs, y :: ys, h1, h2 => by
    simp only [tokLe] at h1 h2
    by_cases hxy : x = y
    · subst hxy
      rw [if_pos rfl] at h1 h2
      rw [tokLe_antisymm _ _ h1 h2]
    · rw [if_neg hxy] at h1
      rw [if_neg (Ne.symm hxy)] at h2
      have hx : x < y := of_decide_eq_true h1
      have hy : y < x := of_decide_eq_true h2
      exact absurd hx (not_lt_of_gt hy)

/-- Two permuted token lists have the same `tokLe` merge sort. -/
theorem mergeSort_tokLe_perm_congr {l₁ l₂ : List (List Char)} (h : l₁.Perm l₂) :
    l₁.mergeSort tokLe = l₂.mergeSort tokLe := by
  have hs₁ := List.sorted_mergeSort
    (fun a b c => tokLe_trans a b c) (fun a b => tokLe_total a b) l₁
  have hs₂ := List.sorted_mergeSort
    (fun a b c => tokLe_trans a b c) (fun a b => tokLe_total a b) l₂
  have hperm : (l₁.mergeSort tokLe).Perm (l₂.mergeSort tokLe) :=
    ((List.mergeSort_perm l₁ tokLe).trans h).trans (List.mergeSort_perm l₂ tokLe).symm
  have hanti : ∀ a b : List Char, tokLe a b = true → tokLe b a = true → a = b :=
    tokLe_antisymm
  haveI : IsAntisymm (List Char) (fun a b => tokLe a b = true) := ⟨hanti⟩
  exact List.eq_of_perm_of_sorted hperm hs₁ hs₂

/-- Sorting an already `tokLe`-sorted list is the identity, so the sort is
idempotent. -/
theorem mergeSort_tokLe_idem (l : List (List Char)) :
    (l.mergeSort tokLe).mergeSort tokLe = l.mergeSort tokLe :=
  List.mergeSort_of_sorted
    (List.sorted_mergeSort
      (fun a b c => tokLe_trans a b c) (fun a b => tokLe_total a b) l)

/-! ### Lemmas about word splitting and joining -/

/-- The tokens produced by splitting are nonempty, contain no whitespace,
and draw their characters from the accumulator or the input. -/
theorem splitWordsAux_tokens : ∀ (cs acc : List Char),
    (∀ c ∈ acc, isPySpace c = false) →
    ∀ w ∈ splitWordsAux acc cs,
      w ≠ [] ∧ ∀ c ∈ w, isPySpace c = false ∧ (c ∈ acc ∨ c ∈ cs) := by
  intro cs
  induction cs with
  | nil =>
    intro acc hacc w hw
    simp only [splitWordsAux] at hw
    by_cases he : acc.isEmpty
    · rw [if_pos he] at hw
      cases hw
    · rw [if_neg he] at hw
      rcases List.mem_singleton.mp hw with rfl
      refine ⟨?_, fun c hc => ?_⟩
      · simp only [ne_eq, List.reverse_eq_nil_iff]
        intro h
        rw [h] at he
        exact he rfl
      · have hc2 : c ∈ acc := List.mem_reverse.mp hc
        exact ⟨hacc c hc2, Or.inl hc2⟩
  | cons c cs ih =>
    intro acc hacc w hw
    simp only [splitWordsAux] at hw
    by_cases hsp : isPySpace c = true
    · rw [if_pos hsp] at hw
      by_cases he : acc.isEmpty
      · rw [if_pos he] at hw
        obtain ⟨h1, h2⟩ := ih [] (by simp) w hw
        refine ⟨h1, fun d hd => ⟨(h2 d hd).1, ?_⟩⟩
        rcases (h2 d hd).2 with hmem | hmem
        · cases hmem
        · exact Or.inr (List.mem_cons_of_mem _ hmem)
      · rw [if_neg he] at hw
        rcases List.mem_cons.mp hw with rfl | hmem
        · refine ⟨?_, fun d hd => ?_⟩
          · simp only [ne_eq, List.reverse_eq_nil_iff]
            intro h
            rw [h] at he
            exact he rfl
          · have hd2 : d ∈ acc := List.mem_reverse.mp hd
            exact ⟨hacc d hd2, Or.inl hd2⟩
        · obtain ⟨h1, h2⟩ := ih [] (by simp) w hmem
          refine ⟨h1, fun d hd => ⟨(h2 d hd).1, ?_⟩⟩
          rcases (h2 d hd).2 with hmem2 | hmem2
          · cases hmem2
          · exact Or.inr (List.mem_cons_of_mem _ hmem2)
    · rw [if_neg hsp] at hw
      have hstep : ∀ d ∈ c :: acc, isPySpace d = false := by
        intro d hd
        rcases List.mem_cons.mp hd with rfl | hd2
        · exact Bool.eq_false_iff.mpr hsp
        · exact hacc d hd2
      obtain ⟨h1, h2⟩ := ih (c :: acc) hstep w hw
      refine ⟨h1, fun d hd => ⟨(h2 d hd).1, ?_⟩⟩
      rcases (h2 d hd).2 with hmem | hmem
      · rcases List.mem_cons.mp hmem with rfl | hd2
        · exact Or.inr (List.mem_cons_self _ _)
        · exact Or.inl hd2
      · exact Or.inr (List.mem_cons_of_mem _ hmem)

theorem splitWords_tokens {cs : List Char} :
    ∀ w ∈ splitWords cs, w ≠ [] ∧ ∀ c ∈ w, isPySpace c = false ∧ c ∈ cs := by
  intro w hw
  obtain ⟨h1, h2⟩ := splitWordsAux_tokens cs [] (by simp) w hw
  refine ⟨h1, fun c hc => ⟨(h2 c hc).1, ?_⟩⟩
  rcases (h2 c hc).2 with h | h
  · cases h
  · exact h

/-- Reading a whitespace-free word advances the accumulator. -/
theorem splitWordsAux_word : ∀ (w acc cs : List Char),
    (∀ c ∈ w, isPySpace c = false) →
    splitWordsAux acc (w ++ cs) = splitWordsAux (w.reverse ++ acc) cs := by
  intro w
  induction w with
  | nil => intro acc cs _; simp
  | cons c w ih =>
    intro acc cs h
    have hc : isPySpace c = false := h c (List.mem_cons_self _ _)
    simp only [List.cons_append, splitWordsAux, hc, Bool.false_eq_true, if_false,
      List.append_eq]
    rw [ih (c :: acc) cs (fun d hd => h d (List.mem_cons_of_mem _ hd))]
    simp

/-- Splitting a space-join of nonempty, whitespace-free words returns
exactly those words. -/
theorem splitWords_joinWords : ∀ ws : List (List Char),
    (∀ w ∈ ws, w ≠ [] ∧ ∀ c ∈ w, isPySpace c = false) →
    splitWords (joinWords ws) = ws := by
  intro ws
  induction ws with
  | nil => intro _; rfl
  | cons w ws ih =>
    intro h
    obtain ⟨hw, hcs⟩ := h w (List.mem_cons_self _ _)
    cases ws with
    | nil =>
      show splitWordsAux [] (joinWords [w]) = [w]
      have : joinWords [w] = w ++ [] := by simp [joinWords]
      rw [this, splitWordsAux_word w [] [] hcs]
      simp only [splitWordsAux, List.append_nil, List.isEmpty_eq_true,
        List.reverse_eq_nil_iff]
      rw [if_neg hw]
      simp
    | cons w2 ws2 =>
      have hjoin : joinWords (w :: w2 :: ws2) = w ++ ' ' :: joinWords (w2 :: ws2) := by
        simp [joinWords]
      show splitWordsAux [] (joinWords (w :: w2 :: ws2)) = w :: w2 :: ws2
      rw [hjoin, splitWordsAux_word w [] _ hcs]
      simp only [splitWordsAux, List.append_nil]
      rw [if_pos (by decide : isPySpace ' ' = true)]
      rw [if_neg (by simpa using hw)]
      have := ih (fun v hv => h v (List.mem_cons_of_mem _ hv))
      simp only [List.reverse_reverse]
      exact congrArg (w :: ·) this

/-- Every character of a space-join is a character of some word or the
space separator. -/
theorem joinWords_chars : ∀ (ws : List (List Char)) (c : Char),
    c ∈ joinWords ws → (∃ w ∈ ws, c ∈ w) ∨ c = ' ' := by
  intro ws
  induction ws with
  | nil => intro c hc; cases hc
  | cons w ws ih =>
    cases ws with
    | nil =>
      intro c hc
      exact Or.inl ⟨w, List.mem_cons_self _ _, by simpa [joinWords] using hc⟩
    | cons w2 ws2 =>
      intro c hc
      have hjoin : joinWords (w :: w2 :: ws2) = w ++ ' ' :: joinWords (w2 :: ws2) := by
        simp [joinWords]
      rw [hjoin] at hc
      rcases List.mem_append.mp hc with hmem | hmem
      · exact Or.inl ⟨w, List.mem_cons_self _ _, hmem⟩
      · rcases List.mem_cons.mp hmem with rfl | hmem2
        · exact Or.inr rfl
        · rcases ih c hmem2 with ⟨v, hv, hcv⟩ | hsp
          · exact Or.inl ⟨v, List.mem_cons_of_mem _ hv, hcv⟩
          · exact Or.inr hsp

/-- The first character of a space-join of nonempty words is the first
character of the first word. -/
theorem joinWords_head? : ∀ (w : List Char) (ws : List (List Char)), w ≠ [] →
    (joinWords (w :: ws)).head? = w.head? := by
  intro w ws hw
  cases ws with
  | nil => simp [joinWords]
  | cons w2 ws2 =>
    have hjoin : joinWords (w :: w2 :: ws2) = w ++ ' ' :: joinWords (w2 :: ws2) := by
      simp [joinWords]
    rw [hjoin]
    cases w with
    | nil => exact absurd rfl hw
    | cons c t => rfl

theorem joinWords_ne_nil : ∀ (w : List Char) (ws : List (List Char)), w ≠ [] →
    joinWords (w :: ws) ≠ [] := by
  intro w ws hw
  cases ws with
  | nil => simpa [joinWords] using hw
  | cons w2 ws2 =>
    have hjoin : joinWords (w :: w2 :: ws2) = w ++ ' ' :: joinWords (w2 :: ws2) := by
      simp [joinWords]
    rw [hjoin]
    simp

/-- The last character of a space-join of nonempty words is the last
character of the last word. -/
theorem joinWords_getLast? : ∀ (ws : List (List Char)) (w : List Char),
    (∀ v ∈ w :: ws, v ≠ []) →
    ∃ v ∈ w :: ws, (joinWords (w :: ws)).getLast? = v.getLast? := by
  intro ws
  induction ws with
  | nil =>
    intro w _
    exact ⟨w, List.mem_cons_self _ _, by simp [joinWords]⟩
  | cons w2 ws2 ih =>
    intro w h
    have hjoin : joinWords (w :: w2 :: ws2) = w ++ ' ' :: joinWords (w2 :: ws2) := by
      simp [joinWords]
    obtain ⟨v, hv, hlast⟩ := ih w2 (fun u hu => h u (List.mem_cons_of_mem _ hu))
    refine ⟨v, List.mem_cons_of_mem _ hv, ?_⟩
    rw [hjoin, List.getLast?_append]
    have hne : joinWords (w2 :: ws2) ≠ [] :=
      joinWords_ne_nil w2 ws2 (h w2 (List.mem_cons_of_mem _ (List.mem_cons_self _ _)))
    have h1 : (' ' :: joinWords (w2 :: ws2)).getLast? = (joinWords (w2 :: ws2)).getLast? := by
      cases hj : joinWords (w2 :: ws2) with
      | nil => exact absurd hj hne
      | cons d t => exact List.getLast?_cons_cons
    rw [h1, hlast]
    have hv_ne : v ≠ [] := h v (List.mem_cons_of_mem _ hv)
    cases hv2 : v.getLast? with
    | none => exact absurd (List.getLast?_eq_none_iff.mp hv2) hv_ne
    | some x => rfl

/-! ### Character-level fixpoint lemmas for the normalization pipeline -/

theorem toNat_charOfNat {n : Nat} (h : n < 55296) : (Char.ofNat n).toNat = n := by
  unfold Char.ofNat
  rw [dif_pos (Or.inl h)]
  rfl

theorem pyLower_eq_self_of (c : Char)
    (h1 : ¬(0x41 ≤ c.toNat ∧ c.toNat ≤ 0x5a))
    (h2 : ¬(0x410 ≤ c.toNat ∧ c.toNat ≤ 0x42f))
    (h3 : ¬ c.toNat = 0x401) : pyLower c = c := by
  unfold pyLower
  rw [if_neg h1, if_neg h2, if_neg h3]

theorem pyLower_idem (c : Char) : pyLower (pyLower c) = pyLower c := by
  by_cases h1 : 0x41 ≤ c.toNat ∧ c.toNat ≤ 0x5a
  · have hc : pyLower c = Char.ofNat (c.toNat + 0x20) := by
      unfold pyLower; rw [if_pos h1]
    have ht : (pyLower c).toNat = c.toNat + 0x20 := by
      rw [hc]; exact toNat_charOfNat (by omega)
    exact pyLower_eq_self_of _ (by rw [ht]; omega) (by rw [ht]; omega)
      (by rw [ht]; omega)
  · by_cases h2 : 0x410 ≤ c.toNat ∧ c.toNat ≤ 0x42f
    · have hc : pyLower c = Char.ofNat (c.toNat + 0x20) := by
        unfold pyLower; rw [if_neg h1, if_pos h2]
      have ht : (pyLower c).toNat = c.toNat + 0x20 := by
        rw [hc]; exact toNat_charOfNat (by omega)
      exact pyLower_eq_self_of _ (by rw [ht]; omega) (by rw [ht]; omega)
        (by rw [ht]; omega)
    · by_cases h3 : c.toNat = 0x401
      · have hc : pyLower c = Char.ofNat 0x451 := by
          unfold pyLower; rw [if_neg h1, if_neg h2, if_pos h3]
        have ht : (pyLower c).toNat = 0x451 := by
          rw [hc]; exact toNat_charOfNat (by omega)
        exact pyLower_eq_self_of _ (by rw [ht]; omega) (by rw [ht]; omega)
          (by rw [ht]; omega)
      · rw [pyLower_eq_self_of c h1 h2 h3, pyLower_eq_self_of c h1 h2 h3]

theorem removePunct_pyLower_fix (e : Char) :
    pyLower (removePunct (pyLower e)) = removePunct (pyLower e) ∧
    removePunct (removePunct (pyLower e)) = removePunct (pyLower e) := by
  unfold removePunct
  by_cases h : (pyLower e = ',' || pyLower e = ';' || pyLower e = ':') = true
  · rw [if_pos h]
    constructor
    · decide
    · rw [if_neg (by decide)]
  · rw [if_neg h]
    exact ⟨pyLower_idem e, by rw [if_neg h]⟩

theorem mem_stripChars {c : Char} {l : List Char} (h : c ∈ stripChars l) : c ∈ l := by
  unfold stripChars at h
  have h1 := List.mem_reverse.mp h
  have h2 := (List.dropWhile_sublist _).mem h1
  have h3 := List.mem_reverse.mp h2
  exact (List.dropWhile_sublist _).mem h3

theorem map_eq_self_of {α : Type} (f : α → α) :
    ∀ l : List α, (∀ x ∈ l, f x = x) → l.map f = l := by
  intro l
  induction l with
  | nil => intro _; rfl
  | cons a l ih =>
    intro h
    simp only [List.map_cons, h a (List.mem_cons_self _ _),
      ih (fun x hx => h x (List.mem_cons_of_mem _ hx))]

theorem stripChars_eq_self {l : List Char}
    (h1 : ∀ c, l.head? = some c → isPySpace c = false)
    (h2 : ∀ c, l.getLast? = some c → isPySpace c = false) : stripChars l = l := by
  unfold stripChars
  have d1 : l.dropWhile isPySpace = l := by
    cases l with
    | nil => rfl
    | cons c t =>
      rw [List.dropWhile_cons_of_neg]
      simp [h1 c rfl]
  rw [d1]
  have d2 : l.reverse.dropWhile isPySpace = l.reverse := by
    cases hrev : l.reverse with
    | nil => rfl
    | cons c t =>
      rw [List.dropWhile_cons_of_neg]
      have hlast : l.getLast? = some c := by
        rw [List.getLast?_eq_head?_reverse, hrev]
        rfl
      simp [h2 c hlast]
  rw [d2, List.reverse_reverse]

/-! ### Claim C8 -/

/-- C8: the address normalization used for similarity comparison is
idempotent — normalizing an already-normalized string yields the same
string — and token-order invariant: two inputs whose extracted token lists
are permutations of each other normalize to identical strings. -/
theorem C8_normalize_idempotent_order_invariant :
    (∀ (address : String) (remove_house_number : Bool),
      normalize_address_for_comparison
        (normalize_address_for_comparison address remove_house_number)
        remove_house_number =
      normalize_address_for_comparison address remove_house_number) ∧
    (∀ (a b : String) (remove_house_number : Bool),
      (comparisonTokens a).Perm (comparisonTokens b) →
      normalize_address_for_comparison a remove_house_number =
        normalize_address_for_comparison b remove_house_number) := by
  constructor
  · intro address rh
    by_cases ha : address = ""
    · have h0 : normalize_address_for_comparison "" rh = "" := by
        rw [normalize_address_for_comparison, if_pos rfl]
      rw [ha, h0]
      exact h0
    · obtain ⟨ts, hts⟩ : ∃ ts,
          ((comparisonTokens address).filter (keepToken rh)).mergeSort tokLe = ts :=
        ⟨_, rfl⟩
      have hinner : normalize_address_for_comparison address rh =
          String.mk (joinWords ts) := by
        rw [normalize_address_for_comparison, if_neg ha]
        show String.mk (joinWords (((comparisonTokens address).filter
          (keepToken rh)).mergeSort tokLe)) = String.mk (joinWords ts)
        rw [hts]
      rw [hinner]
      have hmem : ∀ w ∈ ts, w ∈ comparisonTokens address ∧ keepToken rh w = true := by
        intro w hw
        have h1 : w ∈ (comparisonTokens address).filter (keepToken rh) :=
          (List.mergeSort_perm _ _).mem_iff.mp (hts.symm ▸ hw)
        exact ⟨List.mem_of_mem_filter h1, List.of_mem_filter h1⟩
      have htok : ∀ w ∈ ts, w ≠ [] ∧ ∀ c ∈ w, isPySpace c = false ∧
          c ∈ (stripChars (address.data.map pyLower)).map removePunct := by
        intro w hw
        have h2 := (hmem w hw).1
        unfold comparisonTokens at h2
        exact splitWords_tokens w h2
      have hcleanfix : ∀ c ∈ (stripChars (address.data.map pyLower)).map removePunct,
          pyLower c = c ∧ removePunct c = c := by
        intro c hc
        obtain ⟨d, hd, rfl⟩ := List.mem_map.mp hc
        have hd2 : d ∈ address.data.map pyLower := mem_stripChars hd
        obtain ⟨e, _, rfl⟩ := List.mem_map.mp hd2
        exact removePunct_pyLower_fix e
      have hjchar : ∀ c ∈ joinWords ts, pyLower c = c ∧ removePunct c = c := by
        intro c hc
        rcases joinWords_chars ts c hc with ⟨w, hw, hcw⟩ | rfl
        · exact hcleanfix c (((htok w hw).2 c hcw).2)
        · exact ⟨by decide, by decide⟩
      by_cases hts0 : ts = []
      · rw [hts0]
        show normalize_address_for_comparison "" rh = ""
        rw [normalize_address_for_comparison, if_pos rfl]
      · obtain ⟨w0, ws0, hcons⟩ := List.exists_cons_of_ne_nil hts0
        have hw0mem : w0 ∈ ts := by rw [hcons]; exact List.mem_cons_self _ _
        have hw0 : w0 ≠ [] := (htok w0 hw0mem).1
        have hjoin_ne : joinWords ts ≠ [] := by
          rw [hcons]; exact joinWords_ne_nil w0 ws0 hw0
        have hout_ne : (String.mk (joinWords ts) : String) ≠ "" := by
          intro h
          exact hjoin_ne (congrArg String.data h)
        rw [normalize_address_for_comparison, if_neg hout_ne]
        have hS1 : (joinWords ts).map pyLower = joinWords ts :=
          map_eq_self_of _ _ (fun c hc => (hjchar c hc).1)
        have hS2 : stripChars (joinWords ts) = joinWords ts := by
          apply stripChars_eq_self
          · intro c hc
            rw [hcons, joinWords_head? w0 ws0 hw0] at hc
            have hcw : c ∈ w0 := by
              cases w0 with
              | nil => exact absurd rfl hw0
              | cons x t => cases hc; exact List.mem_cons_self _ _
            exact (((htok w0 hw0mem).2 c hcw)).1
          · intro c hc
            rw [hcons] at hc
            obtain ⟨v, hv, hlast⟩ := joinWords_getLast? ws0 w0
              (fun u hu => (htok u (by rw [hcons]; exact hu)).1)
            rw [hlast] at hc
            have hcv : c ∈ v := List.mem_of_getLast?_eq_some hc
            exact (((htok v (by rw [hcons]; exact hv)).2 c hcv)).1
        have hS3 : (joinWords ts).map removePunct = joinWords ts :=
          map_eq_self_of _ _ (fun c hc => (hjchar c hc).2)
        have hS4 : comparisonTokens (String.mk (joinWords ts)) = ts := by
          show splitWords ((stripChars ((joinWords ts).map pyLower)).map removePunct) = ts
          rw [hS1, hS2, hS3]
          exact splitWords_joinWords ts (fun w hw =>
            ⟨(htok w hw).1, fun c hc => ((htok w hw).2 c hc).1⟩)
        have hS5 : ts.filter (keepToken rh) = ts :=
          List.filter_eq_self.mpr (fun w hw => (hmem w hw).2)
        have hS6 : ts.mergeSort tokLe = ts := by
          rw [← hts]
          exact mergeSort_tokLe_idem _
        show String.mk (joinWords (((comparisonTokens (String.mk (joinWords ts))).filter
          (keepToken rh)).mergeSort tokLe)) = String.mk (joinWords ts)
        rw [hS4, hS5, hS6]
  · intro a b rh hperm
    by_cases ha : a = ""
    · subst ha
      have h0 : comparisonTokens "" = [] := rfl
      rw [h0] at hperm
      have hb0 : comparisonTokens b = [] := hperm.symm.eq_nil
      rw [normalize_address_for_comparison, if_pos rfl]
      by_cases hb : b = ""
      · rw [normalize_address_for_comparison, if_pos hb]
      · rw [normalize_address_for_comparison, if_neg hb, hb0]
        simp [List.mergeSort_nil, joinWords]
    · by_cases hb : b = ""
      · subst hb
        have h0 : comparisonTokens "" = [] := rfl
        rw [h0] at hperm
        have ha0 : comparisonTokens a = [] := hperm.eq_nil
        rw [normalize_address_for_comparison, if_neg ha, ha0]
        rw [normalize_address_for_comparison, if_pos rfl]
        simp [List.mergeSort_nil, joinWords]
      · rw [normalize_address_for_comparison, if_neg ha]
        rw [normalize_address_for_comparison, if_neg hb]
        show String.mk (joinWords (((comparisonTokens a).filter
          (keepToken rh)).mergeSort tokLe)) =
          String.mk (joinWords (((comparisonTokens b).filter
            (keepToken rh)).mergeSort tokLe))
        rw [mergeSort_tokLe_perm_congr (hperm.filter (keepToken rh))]

theorem C8_normalize_idempotent_order_invariant_witness :
    normalize_address_for_comparison
      (normalize_address_for_comparison "b a" false) false =
      normalize_address_for_comparison "b a" false ∧
    normalize_address_for_comparison "b a" false =
      normalize_address_for_comparison "a b" false := by
  have h1 : comparisonTokens "b a" = [['b'], ['a']] := by decide
  have h2 : comparisonTokens "a b" = [['a'], ['b']] := by decide
  have hperm : (comparisonTokens "b a").Perm (comparisonTokens "a b") := by
    rw [h1, h2]
    exact List.Perm.swap (['a'] : List Char) ['b'] []
  exact ⟨C8_normalize_idempotent_order_invariant.1 "b a" false,
    C8_normalize_idempotent_order_invariant.2 "b a" "a b" false hperm⟩

end BestHack
